import Mathlib

/-!
Verification of the nmsr-rs geometry-construction and software-rasterization
pipeline against its natural-language specification.

The embedding models the Rust sources:
  * `src/utils/nmsr-software-rasterizer/src/logic.rs` (triangle rasterizer)
  * `src/nmsr-3d-renderer/nmsr-player-parts/src/parts/part.rs` (Part model)
  * `src/nmsr-3d-renderer/nmsr-player-parts/src/parts/provider/minecraft.rs`
  * `src/nmsr-3d-renderer/nmsr-rendering/src/low_level/primitives/quad.rs`
  * `src/utils/nmsr-rendering-blockbench-model-generator-experiment/src/blockbench/model.rs`

Finite `f32` values are modelled as exact rationals.  The rasterizer's
barycentric step can divide by zero, producing IEEE non-finite values whose
comparisons drive control flow, so the scalar type `FQ` extends the rationals
with `+inf`, `-inf` and `nan` and its operations follow the IEEE-754 special
value rules (rounding is not modelled; all claims are about control flow and
exact constants, not rounding error).
-/

/-- Scalar model for `f32`: an exact rational or one of the IEEE special
values (positive infinity, negative infinity, not-a-number). -/
inductive FQ where
  | fin (q : ℚ)
  | pinf
  | ninf
  | nan
deriving DecidableEq

namespace FQ

/-- IEEE `<` on floats: any comparison involving `nan` is false. -/
def flt : FQ → FQ → Bool
  | nan, _ => false
  | _, nan => false
  | fin a, fin b => decide (a < b)
  | fin _, pinf => true
  | fin _, ninf => false
  | pinf, pinf => false
  | pinf, fin _ => false
  | pinf, ninf => false
  | ninf, pinf => true
  | ninf, fin _ => true
  | ninf, ninf => false

/-- IEEE addition on the special-value skeleton (exact on finite values). -/
def add : FQ → FQ → FQ
  | nan, _ => nan
  | _, nan => nan
  | fin a, fin b => fin (a + b)
  | fin _, pinf => pinf
  | fin _, ninf => ninf
  | pinf, fin _ => pinf
  | ninf, fin _ => ninf
  | pinf, pinf => pinf
  | pinf, ninf => nan
  | ninf, pinf => nan
  | ninf, ninf => ninf

/-- IEEE subtraction on the special-value skeleton (exact on finite values). -/
def sub : FQ → FQ → FQ
  | nan, _ => nan
  | _, nan => nan
  | fin a, fin b => fin (a - b)
  | fin _, pinf => ninf
  | fin _, ninf => pinf
  | pinf, fin _ => pinf
  | ninf, fin _ => ninf
  | pinf, pinf => nan
  | pinf, ninf => pinf
  | ninf, pinf => ninf
  | ninf, ninf => nan

/-- IEEE multiplication; `0 * inf = nan` as in IEEE-754. -/
def mul : FQ → FQ → FQ
  | nan, _ => nan
  | _, nan => nan
  | fin a, fin b => fin (a * b)
  | fin a, pinf => if a = 0 then nan else if 0 < a then pinf else ninf
  | fin a, ninf => if a = 0 then nan else if 0 < a then ninf else pinf
  | pinf, fin a => if a = 0 then nan else if 0 < a then pinf else ninf
  | ninf, fin a => if a = 0 then nan else if 0 < a then ninf else pinf
  | pinf, pinf => pinf
  | pinf, ninf => ninf
  | ninf, pinf => ninf
  | ninf, ninf => pinf

/-- Division of two finite floats.  A zero denominator arises in the
rasterizer only as IEEE `+0.0` (it is `d00*d11 - d01*d01` evaluated on equal
intermediate values), so `x / 0` is `nan` when `x = 0` and a signed infinity
otherwise, exactly as IEEE-754 prescribes for division by `+0.0`. -/
def divQ (n d : ℚ) : FQ :=
  if d ≠ 0 then fin (n / d)
  else if n = 0 then nan
  else if 0 < n then pinf
  else ninf

end FQ

/-- 2-component float vector (`glam::Vec2`). -/
structure Vec2Q where
  x : ℚ
  y : ℚ
deriving DecidableEq

/-- 3-component float vector (`glam::Vec3`). -/
structure Vec3Q where
  x : ℚ
  y : ℚ
  z : ℚ
deriving DecidableEq

/-- 4-component float vector (`glam::Vec4`). -/
structure Vec4Q where
  x : ℚ
  y : ℚ
  z : ℚ
  w : ℚ
deriving DecidableEq

namespace Vec3Q

/-- Componentwise subtraction, as `glam` implements `Vec3 - Vec3`. -/
def vsub (a b : Vec3Q) : Vec3Q := ⟨a.x - b.x, a.y - b.y, a.z - b.z⟩

/-- Dot product, as `glam` implements `Vec3::dot`. -/
def dot (a b : Vec3Q) : ℚ := a.x * b.x + a.y * b.y + a.z * b.z

end Vec3Q

/-- `Vec4Swizzles::xyz`. -/
def Vec4Q.xyz (v : Vec4Q) : Vec3Q := ⟨v.x, v.y, v.z⟩

/-- `Vec3::extend` producing a `Vec4`. -/
def Vec3Q.extend (v : Vec3Q) (w : ℚ) : Vec4Q := ⟨v.x, v.y, v.z, w⟩

/-- 3-component vector of possibly non-finite floats (interpolation output). -/
structure Vec3F where
  x : FQ
  y : FQ
  z : FQ
deriving DecidableEq

/-- 2-component vector of possibly non-finite floats. -/
structure Vec2F where
  x : FQ
  y : FQ
deriving DecidableEq

/-- 4-component vector of possibly non-finite floats. -/
structure Vec4F where
  x : FQ
  y : FQ
  z : FQ
  w : FQ
deriving DecidableEq

/-- Barycentric blend of one scalar attribute:
`bx * a + by * b + bz * c`, associated as glam / Rust evaluates it
(`(bx*a + by*b) + bz*c`), over the IEEE scalar model. -/
def interpQ (bx by_ bz : FQ) (a b c : ℚ) : FQ :=
  ((bx.mul (FQ.fin a)).add ((by_).mul (FQ.fin b))).add ((bz).mul (FQ.fin c))

/-! ## Rasterizer data model (`nmsr-software-rasterizer`)

`shader.rs` and `model.rs` of the software rasterizer are not part of the
provided sources; only `logic.rs` is.  Following the specification (section
4.5), the vertex and fragment shader stages are modelled as opaque function
fields of the shading state, and the render entry carries the viewport size
plus the color (RGBA8) and depth (single float channel) buffers. -/

/-- Low-level mesh vertex (`nmsr-rendering` `Vertex`): position, uv, normal. -/
structure Vtx where
  position : Vec3Q
  uv : Vec2Q
  normal : Vec3Q
deriving DecidableEq

/-- `VertexInput` handed to the vertex shader (`shader.rs`). -/
structure VertexInput where
  position : Vec4Q
  normal : Vec3Q
  tex_coord : Vec2Q
deriving DecidableEq

/-- `VertexOutput` produced by the vertex shader: screen-space position
(finite), texture coordinate and normal carrier. -/
structure VertexOutput where
  position : Vec4Q
  tex_coord : Vec2Q
  normal : Vec3Q
deriving DecidableEq

/-- Interpolated fragment attributes (may be non-finite when the barycentric
weights are non-finite). -/
structure FragmentInput where
  position : Vec4F
  tex_coord : Vec2F
  normal : Vec3F
deriving DecidableEq

/-- Modelled from the spec: `ShaderState` of `shader.rs` is absent from the
sources; section 4.5 describes it as the opaque per-draw state consumed by a
vertex-shader step producing screen-space positions and by a fragment-shader
step producing an RGBA color.  Both stages are opaque function fields here. -/
structure ShaderState where
  vertex_shader : VertexInput → VertexOutput
  fragment_shader : FragmentInput → Vec4F

/-- An RGBA8 pixel as stored in the color buffer. -/
structure Rgba8 where
  r : ℕ
  g : ℕ
  b : ℕ
  a : ℕ
deriving DecidableEq

/-- The two output buffers of a render entry, modelled as total functions on
pixel coordinates (the Rust `image` buffers store exactly
`width * height` texels; coordinates outside the grid are never accessed,
which claim C9 establishes). -/
structure Textures where
  output : ℕ → ℕ → Rgba8
  depth_buffer : ℕ → ℕ → ℚ

/-- Viewport size in pixels. -/
structure RSize where
  width : ℕ
  height : ℕ
deriving DecidableEq

/-- `RenderEntry` (from the rasterizer's `model.rs`, absent from the sources):
the spec describes it as the viewport size plus the color and depth buffers
owned by the in-progress draw call. -/
structure RenderEntry where
  size : RSize
  textures : Textures

/-- Point update of a buffer at one pixel coordinate (`put_pixel`). -/
def funUpdate {α : Type} (f : ℕ → ℕ → α) (x y : ℕ) (v : α) : ℕ → ℕ → α :=
  fun i j => if i = x ∧ j = y then v else f i j

/-! ## `logic.rs` free functions -/

/-- `map_float_u32` from `logic.rs`: clamp the value into `[0, 1]`, scale by
`max - min`, offset by `min`, and truncate to an unsigned integer (the value
is non-negative after clamping, so the Rust `as u32` cast is a floor). -/
def map_float_u32 (value : ℚ) (lo hi : ℕ) : ℕ :=
  let v := min (max value 0) 1
  (Int.floor (v * ((hi - lo : ℕ) : ℚ) + (lo : ℚ))).toNat

/-- `map_u32_float` from `logic.rs`: clamp into `[min, max]` and divide the
offset by the range (callers only reach this with `max > 0`). -/
def map_u32_float (value lo hi : ℕ) : ℚ :=
  let v := Nat.min (Nat.max value lo) hi
  ((v - lo : ℕ) : ℚ) / (((hi - lo : ℕ)) : ℚ)

/-- `convert_f32_slice_to_u8_slice` from `logic.rs`: multiply each channel by
`255.0` and apply the Rust saturating `as u8` cast (negative and `nan` map to
`0`, values at or above `256` and `+inf` map to `255`, otherwise floor). -/
def fqToU8 : FQ → ℕ
  | FQ.fin q => if q < 0 then 0 else Nat.min (Int.floor q).toNat 255
  | FQ.pinf => 255
  | FQ.ninf => 0
  | FQ.nan => 0

/-- `convert_f32_slice_to_u8_slice` applied to an RGBA color. -/
def convert_f32_slice_to_u8_slice (c : Vec4F) : Rgba8 :=
  ⟨fqToU8 (c.x.mul (FQ.fin 255)), fqToU8 (c.y.mul (FQ.fin 255)),
   fqToU8 (c.z.mul (FQ.fin 255)), fqToU8 (c.w.mul (FQ.fin 255))⟩

/-- `apply_vertex_shader` from `logic.rs`: extend the position with `w = 1`
and run the vertex shader. -/
def apply_vertex_shader (v : Vtx) (state : ShaderState) : VertexOutput :=
  state.vertex_shader ⟨v.position.extend 1, v.normal, v.uv⟩

/-- The `barycentric_coordinates` closure of `draw_triangle` (`logic.rs`
lines 60-77), verbatim: dot products are exact on finite inputs, the two
divisions follow IEEE division by `+0.0` when the denominator vanishes, and
`u = 1.0 - v - w` is evaluated over the IEEE scalar model. -/
def barycentric_coordinates (x y : ℚ) (a b c : Vec3Q) : Vec3F :=
  let v0 := b.vsub a
  let v1 := c.vsub a
  let v2 := (Vec3Q.mk x y 0).vsub a
  let d00 := v0.dot v0
  let d01 := v0.dot v1
  let d11 := v1.dot v1
  let d20 := v2.dot v0
  let d21 := v2.dot v1
  let denom := d00 * d11 - d01 * d01
  let v := FQ.divQ (d11 * d20 - d01 * d21) denom
  let w := FQ.divQ (d00 * d21 - d01 * d20) denom
  let u := (FQ.fin 1).sub v |>.sub w
  ⟨u, v, w⟩

/-- The body of the per-pixel loop of `draw_triangle` (`logic.rs` lines
57-147) for the pixel `p = (screen_x, screen_y)`: each `continue` returns the
buffers unchanged, the final write-back updates both buffers at `p`. -/
def processPixel (state : ShaderState) (va vb vc : VertexOutput) (w h : ℕ)
    (tex : Textures) (p : ℕ × ℕ) : Textures :=
  let x := map_u32_float p.1 0 w
  let y := map_u32_float p.2 0 h
  let barycentric :=
    barycentric_coordinates x y va.position.xyz vb.position.xyz vc.position.xyz
  if barycentric.x.flt (FQ.fin 0) || barycentric.y.flt (FQ.fin 0) ||
      barycentric.z.flt (FQ.fin 0) then
    tex
  else
    let depth : ℚ := 1
    if depth < 0 ∨ 1 < depth then
      tex
    else
      let position : Vec4F :=
        ⟨interpQ barycentric.x barycentric.y barycentric.z
           va.position.x vb.position.x vc.position.x,
         interpQ barycentric.x barycentric.y barycentric.z
           va.position.y vb.position.y vc.position.y,
         interpQ barycentric.x barycentric.y barycentric.z
           va.position.z vb.position.z vc.position.z,
         interpQ barycentric.x barycentric.y barycentric.z
           va.position.w vb.position.w vc.position.w⟩
      let tex_coord : Vec2F :=
        ⟨interpQ barycentric.x barycentric.y barycentric.z
           va.tex_coord.x vb.tex_coord.x vc.tex_coord.x,
         interpQ barycentric.x barycentric.y barycentric.z
           va.tex_coord.y vb.tex_coord.y vc.tex_coord.y⟩
      let normal : Vec3F :=
        ⟨interpQ barycentric.x barycentric.y barycentric.z
           va.normal.x vb.normal.x vc.normal.x,
         interpQ barycentric.x barycentric.y barycentric.z
           va.normal.y vb.normal.y vc.normal.y,
         interpQ barycentric.x barycentric.y barycentric.z
           va.normal.z vb.normal.z vc.normal.z⟩
      let color := state.fragment_shader ⟨position, tex_coord, normal⟩
      if depth < tex.depth_buffer p.1 p.2 then
        tex
      else
        ⟨funUpdate tex.output p.1 p.2 (convert_f32_slice_to_u8_slice color),
         funUpdate tex.depth_buffer p.1 p.2 depth⟩

/-- One row of the pixel scan: `x` ranging over `[x0, x0 + n)` at height `y`,
in the inner-loop order of `draw_triangle`. -/
def rowPixels (y x0 : ℕ) : ℕ → List (ℕ × ℕ)
  | 0 => []
  | n + 1 => (x0, y) :: rowPixels y (x0 + 1) n

/-- The full pixel scan: rows `y` over `[y0, y0 + m)`, each row scanning `x`
over `[x0, x0 + n)`, in the nested-loop order of `draw_triangle`. -/
def boxPixels (x0 n y0 : ℕ) : ℕ → List (ℕ × ℕ)
  | 0 => []
  | m + 1 => rowPixels y0 x0 n ++ boxPixels x0 n (y0 + 1) m

/-- The clamped screen-space bounding box of `draw_triangle` (`logic.rs`
lines 40-49), as the list of scanned pixels in loop order. -/
def scannedPixels (va vb vc : VertexOutput) (w h : ℕ) : List (ℕ × ℕ) :=
  let min_x : ℚ := Int.floor (min (min va.position.x vb.position.x) vc.position.x)
  let max_x : ℚ := Int.ceil (max (max va.position.x vb.position.x) vc.position.x)
  let min_y : ℚ := Int.floor (min (min va.position.y vb.position.y) vc.position.y)
  let max_y : ℚ := Int.ceil (max (max va.position.y vb.position.y) vc.position.y)
  let min_screen_x := map_float_u32 min_x 0 w
  let max_screen_x := map_float_u32 max_x 0 w
  let min_screen_y := map_float_u32 min_y 0 h
  let max_screen_y := map_float_u32 max_y 0 h
  boxPixels min_screen_x (max_screen_x - min_screen_x)
    min_screen_y (max_screen_y - min_screen_y)

/-- `draw_triangle` after the vertex stage: scan the clamped bounding box and
process every pixel in loop order. -/
def drawTriangleV (state : ShaderState) (va vb vc : VertexOutput) (w h : ℕ)
    (tex : Textures) : Textures :=
  (scannedPixels va vb vc w h).foldl (processPixel state va vb vc w h) tex

/-- `RenderEntry::draw_triangle` (`logic.rs` lines 22-149): guard on the
index-slice length, fetch and shade the three vertices in reverse index
order, then rasterize.  Rust indexing into `vertices` panics when an index is
out of range; the model totalizes it with a default vertex (no claim
exercises that case). -/
def draw_triangle (e : RenderEntry) (indices : List ℕ) (vertices : List Vtx)
    (state : ShaderState) : RenderEntry :=
  if indices.length ≠ 3 then e
  else
    let dflt : Vtx := ⟨⟨0, 0, 0⟩, ⟨0, 0⟩, ⟨0, 0, 0⟩⟩
    let va := apply_vertex_shader (vertices.getD (indices.getD 2 0) dflt) state
    let vb := apply_vertex_shader (vertices.getD (indices.getD 1 0) dflt) state
    let vc := apply_vertex_shader (vertices.getD (indices.getD 0 0) dflt) state
    ⟨e.size, drawTriangleV state va vb vc e.size.width e.size.height e.textures⟩

/-! ## UV model (`nmsr-player-parts` `uv.rs`, absent from the sources)

`FaceUv`, its rotate/flip operations, `box_uv` and `uv_from_pos_and_size`
live in `nmsr-player-parts/src/parts/uv.rs`, which is not among the provided
sources; they are modelled from the specification (sections 3, 4.1, 4.4). -/

/-- A texel coordinate pair on the texture sheet. -/
structure UvCoordinate where
  x : ℕ
  y : ℕ
deriving DecidableEq

/-- `FaceUv` (spec section 3): a texel rectangle given by its top-left and
bottom-right corners, a clockwise quarter-turn count and two flip flags. -/
structure FaceUv where
  top_left : UvCoordinate
  bottom_right : UvCoordinate
  cw_rotation_count : ℕ
  flipped_horizontally : Bool
  flipped_vertically : Bool
deriving DecidableEq

namespace FaceUv

/-- Modelled from the spec (section 4.1): `rotate_cw` turns the rectangle 90
degrees clockwise — the corner occupying the bottom-left position becomes the
new top-left and the old top-right becomes the new bottom-right — and
increments the rotation count modulo 4. -/
def rotate_cw (uv : FaceUv) : FaceUv :=
  { uv with
    top_left := ⟨uv.top_left.x, uv.bottom_right.y⟩
    bottom_right := ⟨uv.bottom_right.x, uv.top_left.y⟩
    cw_rotation_count := (uv.cw_rotation_count + 1) % 4 }

/-- Modelled from the spec: a horizontal flip mirrors the rectangle
left-to-right by exchanging the two corners' `u` coordinates, toggling the
stored flag. -/
def flip_horizontally (uv : FaceUv) : FaceUv :=
  { uv with
    top_left := ⟨uv.bottom_right.x, uv.top_left.y⟩
    bottom_right := ⟨uv.top_left.x, uv.bottom_right.y⟩
    flipped_horizontally := !uv.flipped_horizontally }

/-- Modelled from the spec: a vertical flip mirrors the rectangle
top-to-bottom by exchanging the two corners' `v` coordinates, toggling the
stored flag. -/
def flip_vertically (uv : FaceUv) : FaceUv :=
  { uv with
    top_left := ⟨uv.top_left.x, uv.bottom_right.y⟩
    bottom_right := ⟨uv.bottom_right.x, uv.top_left.y⟩
    flipped_vertically := !uv.flipped_vertically }

/-- Iterated clockwise rotation. -/
def rotateN : ℕ → FaceUv → FaceUv
  | 0, uv => uv
  | n + 1, uv => rotateN n (rotate_cw uv)

end FaceUv

/-- The six per-face UV rectangles of a cube, keyed by face name. -/
structure CubeFaceUvs where
  north : FaceUv
  south : FaceUv
  east : FaceUv
  west : FaceUv
  up : FaceUv
  down : FaceUv
deriving DecidableEq

/-- A plain rectangle with zero rotation and no flips at the given texel
corners, as produced for each face of a box UV net. -/
def plainFaceUv (x0 y0 x1 y1 : ℕ) : FaceUv :=
  ⟨⟨x0, y0⟩, ⟨x1, y1⟩, 0, false, false⟩

/-- Modelled from the spec (section 4.4): `box_uv(start_x, start_y, [w,h,d])`
computes the six face rectangles of the box-UV net whose front (north) face
has its top-left corner at `(start_x, start_y)`; the remaining faces sit at
the fixed offsets of the Minecraft skin layout — top and bottom above the
front face, and right/front/left/back packed left to right. -/
def box_uv (x y : ℕ) (s : ℕ × ℕ × ℕ) : CubeFaceUvs :=
  let w := s.1
  let h := s.2.1
  let d := s.2.2
  { north := plainFaceUv x y (x + w) (y + h)
    south := plainFaceUv (x + w + d) y (x + 2 * w + d) (y + h)
    east := plainFaceUv (x - d) y x (y + h)
    west := plainFaceUv (x + w) y (x + w + d) (y + h)
    up := plainFaceUv x (y - d) (x + w) y
    down := plainFaceUv (x + w) (y - d) (x + 2 * w) y }

/-- Modelled from the spec: `uv_from_pos_and_size(x, y, w, h)` is the plain
rectangle from `(x, y)` to `(x + w, y + h)`. -/
def uv_from_pos_and_size (x y w h : ℕ) : FaceUv :=
  plainFaceUv x y (x + w) (y + h)

/-! ## Part model (`nmsr-player-parts` `part.rs`) -/

/-- Texture identifier tag (`PlayerPartTextureType`, from `types.rs`, absent
from the sources; the spec calls it an opaque source-texture identifier). -/
inductive PlayerPartTextureType where
  | Skin
  | Cape
  | Shadow
  | Custom (id : ℕ)
deriving DecidableEq

/-- `PartAnchorInfo`: the rotation pivot point. -/
structure PartAnchorInfo where
  anchor : Vec3Q
deriving DecidableEq

/-- Modelled from the spec: `PartAnchorInfo::new_rotation_anchor_position`
wraps a pivot position. -/
def PartAnchorInfo.new_rotation_anchor_position (p : Vec3Q) : PartAnchorInfo :=
  ⟨p⟩

/-- Broadcast addition of a scalar to every component (`glam`
`Vec3 += f32`). -/
def Vec3Q.addScalar (v : Vec3Q) (a : ℚ) : Vec3Q := ⟨v.x + a, v.y + a, v.z + a⟩

/-- Broadcast subtraction of a scalar from every component (`glam`
`Vec3 -= f32`). -/
def Vec3Q.subScalar (v : Vec3Q) (a : ℚ) : Vec3Q := ⟨v.x - a, v.y - a, v.z - a⟩

/-- Componentwise addition. -/
def Vec3Q.vadd (a b : Vec3Q) : Vec3Q := ⟨a.x + b.x, a.y + b.y, a.z + b.z⟩

/-- Componentwise multiplication (`glam` `Vec3 * Vec3`). -/
def Vec3Q.vmul (a b : Vec3Q) : Vec3Q := ⟨a.x * b.x, a.y * b.y, a.z * b.z⟩

/-- Scaling by a scalar (`glam` `Vec3 / f32`, `Vec3 * f32`). -/
def Vec3Q.smul (v : Vec3Q) (a : ℚ) : Vec3Q := ⟨v.x * a, v.y * a, v.z * a⟩

namespace Nmsr

/-- `Part` (`part.rs`): a tagged cube or quad primitive.  (Inside the `Nmsr`
namespace because Mathlib already has an unrelated `Part`.) -/
inductive Part where
  | Cube (position size rotation : Vec3Q) (face_uvs : CubeFaceUvs)
      (texture : PlayerPartTextureType) (anchor : Option PartAnchorInfo)
  | Quad (position size rotation : Vec3Q) (face_uv : FaceUv)
      (texture : PlayerPartTextureType) (anchor : Option PartAnchorInfo)
deriving DecidableEq

instance : Inhabited Part :=
  ⟨Part.Quad ⟨0, 0, 0⟩ ⟨0, 0, 0⟩ ⟨0, 0, 0⟩ (plainFaceUv 0 0 0 0)
    PlayerPartTextureType.Skin none⟩

namespace Part

/-- `Part::new_cube` (`part.rs` lines 45-59): rotation defaults to zero,
anchor to none.  Integer position/size/uv inputs convert exactly to floats. -/
def new_cube (texture : PlayerPartTextureType) (pos : ℤ × ℤ × ℤ)
    (size : ℕ × ℕ × ℕ) (uvs : CubeFaceUvs) : Part :=
  Part.Cube ⟨(pos.1 : ℚ), (pos.2.1 : ℚ), (pos.2.2 : ℚ)⟩
    ⟨(size.1 : ℚ), (size.2.1 : ℚ), (size.2.2 : ℚ)⟩ ⟨0, 0, 0⟩ uvs texture none

/-- Modelled from the spec: `Part::new_quad` builds a quad part with zero
rotation and no anchor (used for the shadow quad). -/
def new_quad (texture : PlayerPartTextureType) (pos : Vec3Q)
    (size : ℕ × ℕ × ℕ) (uv : FaceUv) : Part :=
  Part.Quad pos ⟨(size.1 : ℚ), (size.2.1 : ℚ), (size.2.2 : ℚ)⟩ ⟨0, 0, 0⟩ uv
    texture none

/-- `Part::expand` (`part.rs` lines 61-88): double the amount, then grow the
size by it on every axis; a cube additionally shifts its position by half the
doubled amount to stay centered, a quad keeps its position. -/
def expand (p : Part) (amount : ℚ) : Part :=
  let amount2 := amount * 2
  match p with
  | Part.Cube position size rotation face_uvs texture anchor =>
      Part.Cube (position.subScalar (amount2 / 2)) (size.addScalar amount2)
        rotation face_uvs texture anchor
  | Part.Quad position size rotation face_uv texture anchor =>
      Part.Quad position (size.addScalar amount2) rotation face_uv texture
        anchor

/-- Modelled from the spec (section 4.2): `expand_splat` applies the same
scalar to all three axes via `expand`. -/
def expand_splat (p : Part) (amount : ℚ) : Part := p.expand amount

/-- Modelled from the spec (section 3 invariant): the per-axis `expand`
overload used by the armor branch grows the size by twice the per-axis
amount; a cube shifts its position by the amount to stay centered. -/
def expand_vec3 (p : Part) (amount : Vec3Q) : Part :=
  match p with
  | Part.Cube position size rotation face_uvs texture anchor =>
      Part.Cube (position.vsub amount) (size.vadd (amount.smul 2)) rotation
        face_uvs texture anchor
  | Part.Quad position size rotation face_uv texture anchor =>
      Part.Quad position (size.vadd (amount.smul 2)) rotation face_uv texture
        anchor

/-- `Part::get_anchor`. -/
def get_anchor : Part → Option PartAnchorInfo
  | Part.Cube _ _ _ _ _ anchor => anchor
  | Part.Quad _ _ _ _ _ anchor => anchor

/-- `Part::set_anchor`. -/
def set_anchor (p : Part) (a : Option PartAnchorInfo) : Part :=
  match p with
  | Part.Cube position size rotation face_uvs texture _ =>
      Part.Cube position size rotation face_uvs texture a
  | Part.Quad position size rotation face_uv texture _ =>
      Part.Quad position size rotation face_uv texture a

/-- `Part::get_rotation`. -/
def get_rotation : Part → Vec3Q
  | Part.Cube _ _ rotation _ _ _ => rotation
  | Part.Quad _ _ rotation _ _ _ => rotation

/-- `Part::set_rotation`. -/
def set_rotation (p : Part) (r : Vec3Q) : Part :=
  match p with
  | Part.Cube position size _ face_uvs texture anchor =>
      Part.Cube position size r face_uvs texture anchor
  | Part.Quad position size _ face_uv texture anchor =>
      Part.Quad position size r face_uv texture anchor

/-- `rotation_mut().z = v` as a functional update of the Z component. -/
def set_rotation_z (p : Part) (v : ℚ) : Part :=
  let r := p.get_rotation
  p.set_rotation ⟨r.x, r.y, v⟩

/-- `Part::get_size`. -/
def get_size : Part → Vec3Q
  | Part.Cube _ size _ _ _ _ => size
  | Part.Quad _ size _ _ _ _ => size

/-- `Part::get_position`. -/
def get_position : Part → Vec3Q
  | Part.Cube position _ _ _ _ _ => position
  | Part.Quad position _ _ _ _ _ => position

/-- `Part::get_texture`. -/
def get_texture : Part → PlayerPartTextureType
  | Part.Cube _ _ _ _ texture _ => texture
  | Part.Quad _ _ _ _ texture _ => texture

/-- Modelled from the spec (section 4.2 texture retagging): `set_texture`
replaces the texture tag. -/
def set_texture (p : Part) (t : PlayerPartTextureType) : Part :=
  match p with
  | Part.Cube position size rotation face_uvs _ anchor =>
      Part.Cube position size rotation face_uvs t anchor
  | Part.Quad position size rotation face_uv _ anchor =>
      Part.Quad position size rotation face_uv t anchor

/-- Whether a part is the cube variant. -/
def isCube : Part → Bool
  | Part.Cube _ _ _ _ _ _ => true
  | Part.Quad _ _ _ _ _ _ => false

/-- The north-face UV rectangle of a cube part (a quad yields its single
face). -/
def northFaceUv : Part → FaceUv
  | Part.Cube _ _ _ face_uvs _ _ => face_uvs.north
  | Part.Quad _ _ _ face_uv _ _ => face_uv

end Part

end Nmsr

/-! ## Body-part assembler (`minecraft.rs`)

`types.rs` and the armor `model.rs` of `nmsr-player-parts` are not among the
provided sources; their enumerations and accessors are modelled from the
specification (sections 4.3 and 6).  `minecraft.rs` itself is in the sources
and is embedded verbatim below. -/

namespace Nmsr

/-- Body region tags, base and layer variants (`PlayerBodyPartType` of
`types.rs`, modelled from spec section 4.3). -/
inductive PlayerBodyPartType where
  | Head
  | Body
  | LeftArm
  | RightArm
  | LeftLeg
  | RightLeg
  | HeadLayer
  | BodyLayer
  | LeftArmLayer
  | RightArmLayer
  | LeftLegLayer
  | RightLegLayer
deriving DecidableEq

namespace PlayerBodyPartType

/-- Modelled from the spec: the overlay ("layer") variants of the body,
arms and legs; the hat layer is classified separately. -/
def is_layer : PlayerBodyPartType → Bool
  | BodyLayer => true
  | LeftArmLayer => true
  | RightArmLayer => true
  | LeftLegLayer => true
  | RightLegLayer => true
  | _ => false

/-- Modelled from the spec: the hat layer is the head's overlay variant. -/
def is_hat_layer : PlayerBodyPartType → Bool
  | HeadLayer => true
  | _ => false

/-- Modelled from the spec: strip the layer marker from a body part type. -/
def get_non_layer_part : PlayerBodyPartType → PlayerBodyPartType
  | HeadLayer => Head
  | BodyLayer => Body
  | LeftArmLayer => LeftArm
  | RightArmLayer => RightArm
  | LeftLegLayer => LeftLeg
  | RightLegLayer => RightLeg
  | p => p

end PlayerBodyPartType

/-- Equipment slots (`PlayerArmorSlot`, modelled from spec section 4.3). -/
inductive PlayerArmorSlot where
  | Helmet
  | Chestplate
  | Leggings
  | Boots
deriving DecidableEq

/-- Modelled from the spec: each slot's fixed expansion offset.  The spec
does not fix the numeric constants; no theorem below depends on them. -/
def PlayerArmorSlot.get_offset : PlayerArmorSlot → ℚ
  | PlayerArmorSlot.Helmet => 1
  | PlayerArmorSlot.Chestplate => 1
  | PlayerArmorSlot.Leggings => 1 / 2
  | PlayerArmorSlot.Boots => 1

/-- Modelled from the spec: the fixed region-to-slot mapping.  The exact
mapping is not fixed by the spec; no theorem below depends on it. -/
def get_armor_slots_for_part : PlayerBodyPartType → List PlayerArmorSlot
  | PlayerBodyPartType.Head => [PlayerArmorSlot.Helmet]
  | PlayerBodyPartType.Body =>
      [PlayerArmorSlot.Chestplate, PlayerArmorSlot.Leggings]
  | PlayerBodyPartType.LeftArm => [PlayerArmorSlot.Chestplate]
  | PlayerBodyPartType.RightArm => [PlayerArmorSlot.Chestplate]
  | PlayerBodyPartType.LeftLeg =>
      [PlayerArmorSlot.Leggings, PlayerArmorSlot.Boots]
  | PlayerBodyPartType.RightLeg =>
      [PlayerArmorSlot.Leggings, PlayerArmorSlot.Boots]
  | _ => []

/-- Modelled from the spec: which worn pieces are present per slot
(`PlayerArmorSlots`); only presence is observed by `get_parts`. -/
structure PlayerArmorSlots where
  get_armor_slot : PlayerArmorSlot → Bool

/-- Modelled from the spec: the armor material capability
(`ArmorMaterial::get_texture_type`), an opaque slot-to-texture binding. -/
structure ArmorMaterial where
  get_texture_type : PlayerArmorSlot → Option PlayerPartTextureType

/-- Player model variant; `is_slim_arms` distinguishes the slim-arm model
(modelled from spec section 4.3). -/
inductive PlayerModel where
  | Normal
  | Slim
deriving DecidableEq

/-- `PlayerModel::is_slim_arms`. -/
def PlayerModel.is_slim_arms : PlayerModel → Bool
  | PlayerModel.Normal => false
  | PlayerModel.Slim => true

/-- `PlayerPartProviderContext` (modelled from spec section 6): the pose and
feature context consumed by the assembler. -/
structure PlayerPartProviderContext where
  model : PlayerModel
  has_layers : Bool
  has_hat_layer : Bool
  has_cape : Bool
  arm_rotation : ℚ
  shadow_y_pos : Option ℚ
  armor_slots : Option PlayerArmorSlots

/-- `compute_base_part` (`minecraft.rs` lines 128-182): fixed position, size
and box-UV start per region, with narrower slim-arm variants. -/
def compute_base_part (t : PlayerBodyPartType) (is_slim_arms : Bool) : Part :=
  match t with
  | PlayerBodyPartType.Head =>
      Part.new_cube PlayerPartTextureType.Skin (-4, 24, -4) (8, 8, 8)
        (box_uv 8 8 (8, 8, 8))
  | PlayerBodyPartType.Body =>
      Part.new_cube PlayerPartTextureType.Skin (-4, 12, -2) (8, 12, 4)
        (box_uv 20 20 (8, 12, 4))
  | PlayerBodyPartType.LeftArm =>
      if is_slim_arms then
        Part.new_cube PlayerPartTextureType.Skin (-7, 12, -2) (3, 12, 4)
          (box_uv 36 52 (3, 12, 4))
      else
        Part.new_cube PlayerPartTextureType.Skin (-8, 12, -2) (4, 12, 4)
          (box_uv 36 52 (4, 12, 4))
  | PlayerBodyPartType.RightArm =>
      if is_slim_arms then
        Part.new_cube PlayerPartTextureType.Skin (4, 12, -2) (3, 12, 4)
          (box_uv 44 20 (3, 12, 4))
      else
        Part.new_cube PlayerPartTextureType.Skin (4, 12, -2) (4, 12, 4)
          (box_uv 44 20 (4, 12, 4))
  | PlayerBodyPartType.LeftLeg =>
      Part.new_cube PlayerPartTextureType.Skin (-4, 0, -2) (4, 12, 4)
        (box_uv 20 52 (4, 12, 4))
  | _ =>
      Part.new_cube PlayerPartTextureType.Skin (0, 0, -2) (4, 12, 4)
        (box_uv 4 20 (4, 12, 4))

/-- `perform_arm_part_rotation` (`minecraft.rs` lines 184-203): arms get a
rotation anchor at `base_size * (∓1, 2, 0)` and a signed Z arm-swing angle
(negated for the left arm); other regions are untouched. -/
def perform_arm_part_rotation (t : PlayerBodyPartType) (part : Part)
    (is_slim_arms : Bool) (arm_rotation_angle : ℚ) : Part :=
  let normal_part_size := (compute_base_part t is_slim_arms).get_size
  if t = PlayerBodyPartType.LeftArm then
    let rotation := normal_part_size.vmul ⟨-1, 2, 0⟩
    let part :=
      part.set_anchor (some (PartAnchorInfo.new_rotation_anchor_position rotation))
    part.set_rotation_z (-arm_rotation_angle)
  else if t = PlayerBodyPartType.RightArm then
    let rotation := normal_part_size.vmul ⟨1, 2, 0⟩
    let part :=
      part.set_anchor (some (PartAnchorInfo.new_rotation_anchor_position rotation))
    part.set_rotation_z arm_rotation_angle
  else
    part

/-- `append_cape_part` (`minecraft.rs` lines 205-218). -/
def append_cape_part (result : List Part) : List Part :=
  let cape := Part.new_cube PlayerPartTextureType.Cape (-5, 8, 1) (10, 16, 1)
    (box_uv 1 1 (10, 16, 1))
  let cape := cape.set_anchor
    (some (PartAnchorInfo.new_rotation_anchor_position ⟨0, 24, 2⟩))
  let cape := cape.set_rotation ⟨5, 180, 0⟩
  result ++ [cape]

/-- The Rust `as u16` cast of an `i32` (two's-complement truncation). -/
def i32AsU16 (n : ℤ) : ℕ := (n % 65536).toNat

/-- The Rust saturating `as u16` cast of an `f32`. -/
def ratAsU16 (q : ℚ) : ℕ := Nat.min (Int.toNat (Int.floor q)) 65535

/-- `expand_player_body_part` (`minecraft.rs` lines 220-244): expand the base
part by the layer margin, then rebuild its UV box from the north face's
top-left corner shifted by the per-region texel offset, keeping the base
(pre-expansion) size for the box dimensions. -/
def expand_player_body_part (part : Part) (expand_offset : ℚ)
    (box_uv_offset : ℤ × ℤ) : Part :=
  let new_part := part.expand_splat expand_offset
  match new_part with
  | Part.Quad _ _ _ _ _ _ => new_part
  | Part.Cube position size rotation face_uvs texture anchor =>
      let current_box_uv := face_uvs.north.top_left
      let old_size := part.get_size
      Part.Cube position size rotation
        (box_uv (i32AsU16 ((current_box_uv.x : ℤ) + box_uv_offset.1))
          (i32AsU16 ((current_box_uv.y : ℤ) + box_uv_offset.2))
          (ratAsU16 old_size.x, ratAsU16 old_size.y, ratAsU16 old_size.z))
        texture anchor

/-- `get_body_part_layer_uv_offset` (`minecraft.rs` lines 246-259). -/
def get_body_part_layer_uv_offset (t : PlayerBodyPartType) : ℤ × ℤ :=
  match t with
  | PlayerBodyPartType.Head => (32, 0)
  | PlayerBodyPartType.Body => (0, 16)
  | PlayerBodyPartType.LeftArm => (16, 0)
  | PlayerBodyPartType.RightArm => (0, 16)
  | PlayerBodyPartType.LeftLeg => (-16, 0)
  | _ => (0, 16)

/-- `get_layer_expand_offset` (`minecraft.rs` lines 261-266). -/
def get_layer_expand_offset (t : PlayerBodyPartType) : ℚ :=
  match t with
  | PlayerBodyPartType.Head => 1 / 2
  | _ => 1 / 4

/-- The armor loop body of `get_parts` (`minecraft.rs` lines 97-121) for one
slot. -/
def armorPartForSlot (M : ArmorMaterial) (ctx : PlayerPartProviderContext)
    (t : PlayerBodyPartType) (slots : PlayerArmorSlots)
    (slot : PlayerArmorSlot) : List Part :=
  if slots.get_armor_slot slot then
    match M.get_texture_type slot with
    | none => []
    | some texture =>
        let amount := slot.get_offset
        let armor_part := (compute_base_part t false).expand_splat amount
        let armor_part :=
          if slot = PlayerArmorSlot.Chestplate ∧ t ≠ PlayerBodyPartType.Body
          then armor_part.expand_vec3 ⟨0, 0, 5 / 100⟩
          else armor_part
        let armor_part :=
          perform_arm_part_rotation t armor_part false ctx.arm_rotation
        [armor_part.set_texture texture]
  else []

/-- `MinecraftPlayerPartsProvider::get_parts` (`minecraft.rs` lines 41-125):
layer gating, base geometry, arm rotation, the layer early return, then cape,
shadow and armor parts. -/
def get_parts (M : ArmorMaterial) (ctx : PlayerPartProviderContext)
    (body_part : PlayerBodyPartType) : List Part :=
  if (body_part.is_layer && !ctx.has_layers) ||
      (body_part.is_hat_layer && !ctx.has_hat_layer) then
    []
  else
    let non_layer_body_part_type := body_part.get_non_layer_part
    let part := compute_base_part non_layer_body_part_type
      ctx.model.is_slim_arms
    let part := perform_arm_part_rotation non_layer_body_part_type part
      ctx.model.is_slim_arms ctx.arm_rotation
    if body_part.is_layer || body_part.is_hat_layer then
      [expand_player_body_part part
        (get_layer_expand_offset non_layer_body_part_type)
        (get_body_part_layer_uv_offset non_layer_body_part_type)]
    else
      let result := [part]
      let result :=
        if body_part = PlayerBodyPartType.Body ∧ ctx.has_cape then
          append_cape_part result
        else result
      let result :=
        if body_part = PlayerBodyPartType.Head then
          match ctx.shadow_y_pos with
          | some shadow_y_pos =>
              result ++ [Part.new_quad PlayerPartTextureType.Shadow
                ⟨-8, shadow_y_pos, -8⟩ (16, 0, 16)
                (uv_from_pos_and_size 0 0 128 128)]
          | none => result
        else result
      match ctx.armor_slots with
      | none => result
      | some armor_slots =>
          result ++
            (get_armor_slots_for_part non_layer_body_part_type).flatMap
              (armorPartForSlot M ctx non_layer_body_part_type armor_slots)

end Nmsr

/-! ## Quad primitive (`nmsr-rendering` `quad.rs`) -/

/-- `Quad` (`quad.rs`): four corner vertices. -/
structure QuadPrim where
  top_left : Vtx
  top_right : Vtx
  bottom_left : Vtx
  bottom_right : Vtx
deriving DecidableEq

namespace QuadPrim

/-- `Quad::new_from_vec`. -/
def new_from_vec (top_left top_right bottom_left bottom_right : Vtx) :
    QuadPrim :=
  ⟨top_left, top_right, bottom_left, bottom_right⟩

/-- `Quad::new_with_normal` (`quad.rs` lines 47-62): corner UVs mix the
rectangle's top-left and bottom-right U/V independently per corner. -/
def new_with_normal (top_left top_right bottom_left bottom_right : Vec3Q)
    (top_left_uv bottom_right_uv : Vec2Q) (normal : Vec3Q) : QuadPrim :=
  ⟨⟨top_left, top_left_uv, normal⟩,
   ⟨top_right, ⟨bottom_right_uv.x, top_left_uv.y⟩, normal⟩,
   ⟨bottom_left, ⟨top_left_uv.x, bottom_right_uv.y⟩, normal⟩,
   ⟨bottom_right, bottom_right_uv, normal⟩⟩

/-- `PartPrimitive::get_vertices` for `Quad` (`quad.rs` lines 66-73). -/
def get_vertices (q : QuadPrim) : List Vtx :=
  [q.top_left, q.top_right, q.bottom_left, q.bottom_right]

/-- `PartPrimitive::get_indices` for `Quad` (`quad.rs` lines 75-82). -/
def get_indices (_q : QuadPrim) : List ℕ :=
  [2, 0, 3, 0, 1, 3]

end QuadPrim

/-- Twice the signed area of the 2D triangle `a b c`: the cross product of
the edges `b - a` and `c - a`.  With `x` growing right and `y` growing down,
a positive value means clockwise winding. -/
def signedArea2 (a b c : Vec2Q) : ℚ :=
  (b.x - a.x) * (c.y - a.y) - (b.y - a.y) * (c.x - a.x)

/-- Membership in the closed triangle `a b c` (positively oriented): all
three edge half-plane tests are non-negative. -/
def inTriangle (a b c p : Vec2Q) : Prop :=
  0 ≤ signedArea2 a b p ∧ 0 ≤ signedArea2 b c p ∧ 0 ≤ signedArea2 c a p

instance (a b c p : Vec2Q) : Decidable (inTriangle a b c p) := by
  unfold inTriangle; infer_instance

/-- The `xy` screen projection of a mesh vertex's position. -/
def Vtx.xy (v : Vtx) : Vec2Q := ⟨v.position.x, v.position.y⟩

/-! ## Blockbench face serialization (`blockbench/model.rs`) -/

/-- `RawProjectElementFace`: serialized texture id, rotation in degrees and
the four UV rectangle coordinates. -/
structure RawProjectElementFace where
  texture : ℕ
  rotation : ℕ
  uv : ℕ × ℕ × ℕ × ℕ
deriving DecidableEq

/-- `RawProjectElementFace::new` (`blockbench/model.rs` lines 71-111): a
rotated `FaceUv` is normalized back to zero rotations by `4 - rotation_count`
further clockwise turns; a stored vertical flip is then applied as a vertical
flip, and a stored horizontal flip is applied as a vertical flip when the
original rotation count was non-zero and as a horizontal flip otherwise. -/
def RawProjectElementFace.new (texture : ℕ) (uv0 : FaceUv)
    (_horizontal : Bool) : RawProjectElementFace :=
  let original_uv := uv0
  let rotation :=
    if original_uv.cw_rotation_count > 0 then
      ((original_uv.cw_rotation_count + 2) % 4) * 90
    else
      original_uv.cw_rotation_count * 90
  let uv :=
    if original_uv.cw_rotation_count > 0 then
      FaceUv.rotateN (4 - uv0.cw_rotation_count) uv0
    else uv0
  let uv := if original_uv.flipped_vertically then uv.flip_vertically else uv
  let uv :=
    if original_uv.flipped_horizontally then
      if original_uv.cw_rotation_count > 0 then uv.flip_vertically
      else uv.flip_horizontally
    else uv
  ⟨texture, rotation,
   (uv.top_left.x, uv.top_left.y, uv.bottom_right.x, uv.bottom_right.y)⟩

/-- The claim's reading of the face-serialization step: normalize the
rotation first, then apply the stored flips independently of rotation — the
vertical flip as a vertical flip and the horizontal flip as a horizontal
flip.  Kept separate from `RawProjectElementFace.new` so the two can be
compared. -/
def RawProjectElementFace.newClaimed (texture : ℕ) (uv0 : FaceUv)
    (_horizontal : Bool) : RawProjectElementFace :=
  let rotation :=
    if uv0.cw_rotation_count > 0 then
      ((uv0.cw_rotation_count + 2) % 4) * 90
    else
      uv0.cw_rotation_count * 90
  let uv :=
    if uv0.cw_rotation_count > 0 then
      FaceUv.rotateN (4 - uv0.cw_rotation_count) uv0
    else uv0
  let uv := if uv0.flipped_vertically then uv.flip_vertically else uv
  let uv := if uv0.flipped_horizontally then uv.flip_horizontally else uv
  ⟨texture, rotation,
   (uv.top_left.x, uv.top_left.y, uv.bottom_right.x, uv.bottom_right.y)⟩

/-! ## Derived views of the per-pixel stage (used to state the claims) -/

/-- The pixel-inside test of `draw_triangle` at pixel `p`: true when none of
the three barycentric coordinates of the pixel's sample point compares below
zero (an IEEE `nan` coordinate also passes, since `nan < 0` is false). -/
def insideB (va vb vc : VertexOutput) (w h : ℕ) (p : ℕ × ℕ) : Bool :=
  let x := map_u32_float p.1 0 w
  let y := map_u32_float p.2 0 h
  let barycentric :=
    barycentric_coordinates x y va.position.xyz vb.position.xyz vc.position.xyz
  !(barycentric.x.flt (FQ.fin 0) || barycentric.y.flt (FQ.fin 0) ||
    barycentric.z.flt (FQ.fin 0))

/-- The color `draw_triangle` computes for pixel `p`: fragment shader on the
barycentrically interpolated attributes, converted to RGBA8. -/
def shadeAt (state : ShaderState) (va vb vc : VertexOutput) (w h : ℕ)
    (p : ℕ × ℕ) : Rgba8 :=
  let x := map_u32_float p.1 0 w
  let y := map_u32_float p.2 0 h
  let barycentric :=
    barycentric_coordinates x y va.position.xyz vb.position.xyz vc.position.xyz
  let position : Vec4F :=
    ⟨interpQ barycentric.x barycentric.y barycentric.z
       va.position.x vb.position.x vc.position.x,
     interpQ barycentric.x barycentric.y barycentric.z
       va.position.y vb.position.y vc.position.y,
     interpQ barycentric.x barycentric.y barycentric.z
       va.position.z vb.position.z vc.position.z,
     interpQ barycentric.x barycentric.y barycentric.z
       va.position.w vb.position.w vc.position.w⟩
  let tex_coord : Vec2F :=
    ⟨interpQ barycentric.x barycentric.y barycentric.z
       va.tex_coord.x vb.tex_coord.x vc.tex_coord.x,
     interpQ barycentric.x barycentric.y barycentric.z
       va.tex_coord.y vb.tex_coord.y vc.tex_coord.y⟩
  let normal : Vec3F :=
    ⟨interpQ barycentric.x barycentric.y barycentric.z
       va.normal.x vb.normal.x vc.normal.x,
     interpQ barycentric.x barycentric.y barycentric.z
       va.normal.y vb.normal.y vc.normal.y,
     interpQ barycentric.x barycentric.y barycentric.z
       va.normal.z vb.normal.z vc.normal.z⟩
  convert_f32_slice_to_u8_slice
    (state.fragment_shader ⟨position, tex_coord, normal⟩)

/-- The write-back of `draw_triangle` at pixel `p`: store the shaded color
and the depth value `1.0`. -/
def writeBack (state : ShaderState) (va vb vc : VertexOutput) (w h : ℕ)
    (tex : Textures) (p : ℕ × ℕ) : Textures :=
  ⟨funUpdate tex.output p.1 p.2 (shadeAt state va vb vc w h p),
   funUpdate tex.depth_buffer p.1 p.2 1⟩

/-- The exact rational barycentric coordinates of the sample point of pixel
`(i, j)` against the three transformed positions, defined whenever the
denominator is nonzero (the same dot-product formula the code uses,
evaluated in plain rational arithmetic). -/
def barycentricQ (x y : ℚ) (a b c : Vec3Q) : ℚ × ℚ × ℚ :=
  let v0 := b.vsub a
  let v1 := c.vsub a
  let v2 := (Vec3Q.mk x y 0).vsub a
  let d00 := v0.dot v0
  let d01 := v0.dot v1
  let d11 := v1.dot v1
  let d20 := v2.dot v0
  let d21 := v2.dot v1
  let denom := d00 * d11 - d01 * d01
  let v := (d11 * d20 - d01 * d21) / denom
  let w := (d00 * d21 - d01 * d20) / denom
  (1 - v - w, v, w)

/-- The barycentric denominator of a triangle (independent of the sample
point). -/
def baryDenom (a b c : Vec3Q) : ℚ :=
  let v0 := b.vsub a
  let v1 := c.vsub a
  v0.dot v0 * v1.dot v1 - v0.dot v1 * v0.dot v1

/-- Twice the signed screen-space area of the triangle: the 2D cross product
of the projected edges.  Nonzero exactly for screen-non-degenerate
triangles. -/
def screenCross (a b c : Vec3Q) : ℚ :=
  (b.x - a.x) * (c.y - a.y) - (b.y - a.y) * (c.x - a.x)

/-- A transformed vertex lies strictly inside the viewport, whose normalized
screen coordinates span `(0, 1)` on both axes. -/
def strictInside01 (v : VertexOutput) : Prop :=
  0 < v.position.x ∧ v.position.x < 1 ∧ 0 < v.position.y ∧ v.position.y < 1

instance (v : VertexOutput) : Decidable (strictInside01 v) := by
  unfold strictInside01; infer_instance

/-- The claim's pixel-center barycentric test: the barycentric coordinates of
the center of pixel `(i, j)` — the point `((i + 1/2) / w, (j + 1/2) / h)` —
computed against the `xy` projections of the three transformed positions
(the 2D reading of the spec's pixel-center rule). -/
def centerBarycentric2D (va vb vc : VertexOutput) (w h i j : ℕ) :
    ℚ × ℚ × ℚ :=
  let cx : ℚ := ((i : ℚ) + 1 / 2) / (w : ℚ)
  let cy : ℚ := ((j : ℚ) + 1 / 2) / (h : ℚ)
  barycentricQ cx cy ⟨va.position.x, va.position.y, 0⟩
    ⟨vb.position.x, vb.position.y, 0⟩ ⟨vc.position.x, vc.position.y, 0⟩

/-- The axis-aligned closed rectangle with top-left `(x0, y0)` and
bottom-right `(x1, y1)` in screen orientation (`y` grows down). -/
def inRect (x0 x1 y0 y1 : ℚ) (p : Vec2Q) : Prop :=
  x0 ≤ p.x ∧ p.x ≤ x1 ∧ y0 ≤ p.y ∧ p.y ≤ y1

instance (x0 x1 y0 y1 : ℚ) (p : Vec2Q) : Decidable (inRect x0 x1 y0 y1 p) := by
  unfold inRect; infer_instance

/-- The `k`-th vertex of the quad's triangle list: `get_vertices` indexed by
the `k`-th entry of `get_indices`. -/
def QuadPrim.triVertex (q : QuadPrim) (k : ℕ) : Vtx :=
  q.get_vertices.getD (q.get_indices.getD k 0) q.top_left

/-- The serialized UV quadruple of a face rectangle. -/
def uvQuad (uv : FaceUv) : ℕ × ℕ × ℕ × ℕ :=
  (uv.top_left.x, uv.top_left.y, uv.bottom_right.x, uv.bottom_right.y)

/-! ## Concrete fixtures used by witnesses and counterexamples -/

/-- A quad whose corner positions are the axis-aligned rectangle
`[x0, x1] * [y0, y1]` at depth `z` (screen orientation: `y` grows down). -/
def cornerQuad (x0 x1 y0 y1 z : ℚ) (uvtl uvbr : Vec2Q) (nrm : Vec3Q) :
    QuadPrim :=
  QuadPrim.new_with_normal ⟨x0, y0, z⟩ ⟨x1, y0, z⟩ ⟨x0, y1, z⟩ ⟨x1, y1, z⟩
    uvtl uvbr nrm

/-- A transformed vertex at normalized screen position `(x, y)`. -/
def vOutAt (x y : ℚ) : VertexOutput := ⟨⟨x, y, 0, 1⟩, ⟨0, 0⟩, ⟨0, 0, 1⟩⟩

/-- A shading state whose fragment stage returns constant full-white; the
vertex stage returns a fixed vertex (irrelevant when `drawTriangleV` is
exercised directly). -/
def stFix : ShaderState :=
  ⟨fun _ => ⟨⟨0, 0, 0, 1⟩, ⟨0, 0⟩, ⟨0, 0, 1⟩⟩,
   fun _ => ⟨FQ.fin 1, FQ.fin 1, FQ.fin 1, FQ.fin 1⟩⟩

/-- A shading state whose vertex stage sends every vertex to the same screen
position `(1/2, 1/2)` (a fully degenerate transformed triangle) and whose
fragment stage returns constant full-white. -/
def stConstHalf : ShaderState :=
  ⟨fun _ => ⟨⟨1 / 2, 1 / 2, 0, 1⟩, ⟨0, 0⟩, ⟨0, 0, 1⟩⟩,
   fun _ => ⟨FQ.fin 1, FQ.fin 1, FQ.fin 1, FQ.fin 1⟩⟩

/-- Fresh buffers: a recognizable constant color and depth `0` everywhere. -/
def texFix : Textures := ⟨fun _ _ => ⟨5, 5, 5, 5⟩, fun _ _ => 0⟩

/-! ## Helper lemmas about the per-pixel stage and the scan -/

/-- `processPixel` in terms of the inside test, the depth test and the
write-back: each `continue` of the source leaves the buffers unchanged. -/
theorem processPixel_eq (st : ShaderState) (va vb vc : VertexOutput)
    (w h : ℕ) (tex : Textures) (p : ℕ × ℕ) :
    processPixel st va vb vc w h tex p =
      if insideB va vb vc w h p then
        (if 1 < tex.depth_buffer p.1 p.2 then tex
         else writeBack st va vb vc w h tex p)
      else tex := by
  unfold processPixel insideB writeBack shadeAt
  norm_num
  split_ifs <;> simp_all

/-- `processPixel` at pixel `p` leaves every other pixel `q` untouched in
both buffers. -/
theorem processPixel_ne (st : ShaderState) (va vb vc : VertexOutput)
    (w h : ℕ) (tex : Textures) (p q : ℕ × ℕ) (hq : q ≠ p) :
    (processPixel st va vb vc w h tex p).output q.1 q.2 = tex.output q.1 q.2 ∧
    (processPixel st va vb vc w h tex p).depth_buffer q.1 q.2 =
      tex.depth_buffer q.1 q.2 := by
  have hne : ¬(q.1 = p.1 ∧ q.2 = p.2) := by
    intro hh
    exact hq (Prod.ext hh.1 hh.2)
  rw [processPixel_eq]
  split_ifs <;> simp [writeBack, funUpdate, hne]

/-- Folding the pixel stage over a scan list leaves unscanned pixels
untouched in both buffers. -/
theorem foldl_processPixel_not_mem (st : ShaderState) (va vb vc : VertexOutput)
    (w h : ℕ) (L : List (ℕ × ℕ)) (tex : Textures) (p : ℕ × ℕ) (hp : p ∉ L) :
    (L.foldl (processPixel st va vb vc w h) tex).output p.1 p.2 =
      tex.output p.1 p.2 ∧
    (L.foldl (processPixel st va vb vc w h) tex).depth_buffer p.1 p.2 =
      tex.depth_buffer p.1 p.2 := by
  induction L generalizing tex with
  | nil => exact ⟨rfl, rfl⟩
  | cons q L ih =>
      have hq : p ≠ q := fun hh => hp (hh ▸ List.mem_cons_self q L)
      have h1 := processPixel_ne st va vb vc w h tex q p hq
      have h2 := ih (processPixel st va vb vc w h tex q)
        (fun hh => hp (List.mem_cons_of_mem q hh))
      exact ⟨h2.1.trans h1.1, h2.2.trans h1.2⟩

/-- Folding the pixel stage over a duplicate-free scan list containing `p`
produces, at `p`, exactly the outcome of `p`'s own pixel stage run on the
initial depth at `p`. -/
theorem foldl_processPixel_mem (st : ShaderState) (va vb vc : VertexOutput)
    (w h : ℕ) (L : List (ℕ × ℕ)) (tex : Textures) (p : ℕ × ℕ)
    (hnd : L.Nodup) (hp : p ∈ L) :
    ((L.foldl (processPixel st va vb vc w h) tex).output p.1 p.2,
     (L.foldl (processPixel st va vb vc w h) tex).depth_buffer p.1 p.2) =
      if insideB va vb vc w h p ∧ ¬(1 < tex.depth_buffer p.1 p.2)
      then (shadeAt st va vb vc w h p, (1 : ℚ))
      else (tex.output p.1 p.2, tex.depth_buffer p.1 p.2) := by
  induction L generalizing tex with
  | nil => cases hp
  | cons q L ih =>
      rw [List.nodup_cons] at hnd
      rcases List.mem_cons.mp hp with hpq | hpL
      · subst hpq
        rw [List.foldl_cons]
        have hrest := foldl_processPixel_not_mem st va vb vc w h L
          (processPixel st va vb vc w h tex p) p hnd.1
        rw [hrest.1, hrest.2, processPixel_eq]
        by_cases hin : insideB va vb vc w h p
        · by_cases hd : 1 < tex.depth_buffer p.1 p.2
          · simp [hin, hd]
          · simp [hin, hd, writeBack, funUpdate]
        · simp [hin]
      · have hpq : p ≠ q := fun hh => hnd.1 (hh ▸ hpL)
        have hstep := processPixel_ne st va vb vc w h tex q p hpq
        rw [List.foldl_cons,
          ih (processPixel st va vb vc w h tex q) hnd.2 hpL,
          hstep.1, hstep.2]

/-- At any coordinate the pixel stage either keeps the stored depth or
writes the constant `1`. -/
theorem processPixel_depth_cases (st : ShaderState) (va vb vc : VertexOutput)
    (w h : ℕ) (tex : Textures) (p : ℕ × ℕ) (i j : ℕ) :
    (processPixel st va vb vc w h tex p).depth_buffer i j =
        tex.depth_buffer i j ∨
    (processPixel st va vb vc w h tex p).depth_buffer i j = 1 := by
  rw [processPixel_eq]
  by_cases hin : insideB va vb vc w h p
  · by_cases hd : 1 < tex.depth_buffer p.1 p.2
    · simp [hin, hd]
    · simp only [hin, hd, if_true, if_false, writeBack]
      by_cases hij : i = p.1 ∧ j = p.2
      · right; simp [funUpdate, hij]
      · left; simp [funUpdate, hij]
  · simp [hin]

/-- Membership in one scan row. -/
theorem mem_rowPixels (y : ℕ) :
    ∀ (n x0 : ℕ) (p : ℕ × ℕ),
      p ∈ rowPixels y x0 n ↔ p.2 = y ∧ x0 ≤ p.1 ∧ p.1 < x0 + n := by
  intro n
  induction n with
  | zero =>
      intro x0 p
      simp only [rowPixels, List.not_mem_nil, false_iff]
      omega
  | succ n ih =>
      intro x0 p
      obtain ⟨a, b⟩ := p
      simp only [rowPixels, List.mem_cons, ih (x0 + 1), Prod.mk.injEq]
      omega

/-- Membership in the full scan box. -/
theorem mem_boxPixels (x0 n : ℕ) :
    ∀ (m y0 : ℕ) (p : ℕ × ℕ),
      p ∈ boxPixels x0 n y0 m ↔
        x0 ≤ p.1 ∧ p.1 < x0 + n ∧ y0 ≤ p.2 ∧ p.2 < y0 + m := by
  intro m
  induction m with
  | zero =>
      intro y0 p
      simp only [boxPixels, List.not_mem_nil, false_iff]
      omega
  | succ m ih =>
      intro y0 p
      simp only [boxPixels, List.mem_append, mem_rowPixels, ih (y0 + 1)]
      omega

/-- A scan row has no duplicate pixels. -/
theorem nodup_rowPixels (y : ℕ) :
    ∀ (n x0 : ℕ), (rowPixels y x0 n).Nodup := by
  intro n
  induction n with
  | zero => intro x0; simp [rowPixels]
  | succ n ih =>
      intro x0
      refine List.nodup_cons.mpr ⟨?_, ih (x0 + 1)⟩
      rw [mem_rowPixels]
      intro hcon
      omega

/-- The scan box has no duplicate pixels. -/
theorem nodup_boxPixels (x0 n : ℕ) :
    ∀ (m y0 : ℕ), (boxPixels x0 n y0 m).Nodup := by
  intro m
  induction m with
  | zero => intro y0; simp [boxPixels]
  | succ m ih =>
      intro y0
      refine List.Nodup.append (nodup_rowPixels y0 n x0) (ih (y0 + 1)) ?_
      intro p hp hp2
      rw [mem_rowPixels] at hp
      rw [mem_boxPixels] at hp2
      omega

/-- `map_float_u32` with lower bound `0` never exceeds the upper bound. -/
theorem map_float_u32_le (v : ℚ) (n : ℕ) : map_float_u32 v 0 n ≤ n := by
  unfold map_float_u32
  have h1 : min (max v 0) 1 ≤ 1 := min_le_right _ _
  have harg : min (max v 0) 1 * ((n - 0 : ℕ) : ℚ) + ((0 : ℕ) : ℚ) ≤ (n : ℚ) := by
    simp only [Nat.sub_zero, Nat.cast_zero, add_zero]
    calc min (max v 0) 1 * (n : ℚ) ≤ 1 * (n : ℚ) :=
          mul_le_mul_of_nonneg_right h1 (by positivity)
      _ = (n : ℚ) := one_mul _
  have hfl : Int.floor
      (min (max v 0) 1 * ((n - 0 : ℕ) : ℚ) + ((0 : ℕ) : ℚ)) ≤ (n : ℤ) := by
    have hh := Int.floor_mono harg
    simpa using hh
  exact Int.toNat_le.mpr hfl

/-- `map_float_u32` of `0` is `0`. -/
theorem map_float_u32_zero (n : ℕ) : map_float_u32 0 0 n = 0 := by
  unfold map_float_u32
  norm_num

/-- `map_float_u32` of `1` is the width. -/
theorem map_float_u32_one (n : ℕ) : map_float_u32 1 0 n = n := by
  unfold map_float_u32
  norm_num

/-- When every transformed vertex is strictly inside the viewport, the
clamped bounding box degenerates to the full pixel grid: the normalized
coordinates lie in `(0, 1)`, so the floored minima clamp to `0` and the
ceiled maxima clamp to `1`, which map to `0` and the full extent. -/
theorem scannedPixels_full (va vb vc : VertexOutput) (w h : ℕ)
    (ha : strictInside01 va) (hb : strictInside01 vb)
    (hc : strictInside01 vc) :
    scannedPixels va vb vc w h = boxPixels 0 w 0 h := by
  obtain ⟨hax, hax1, hay, hay1⟩ := ha
  obtain ⟨hbx, hbx1, hby, hby1⟩ := hb
  obtain ⟨hcx, hcx1, hcy, hcy1⟩ := hc
  have hminx : Int.floor (min (min va.position.x vb.position.x)
      vc.position.x) = 0 := by
    rw [Int.floor_eq_zero_iff]
    constructor
    · exact le_min (le_min hax.le hbx.le) hcx.le
    · exact lt_of_le_of_lt (le_trans (min_le_left _ _) (min_le_left _ _)) hax1
  have hminy : Int.floor (min (min va.position.y vb.position.y)
      vc.position.y) = 0 := by
    rw [Int.floor_eq_zero_iff]
    constructor
    · exact le_min (le_min hay.le hby.le) hcy.le
    · exact lt_of_le_of_lt (le_trans (min_le_left _ _) (min_le_left _ _)) hay1
  have hmaxx : Int.ceil (max (max va.position.x vb.position.x)
      vc.position.x) = 1 := by
    refine le_antisymm (Int.ceil_le.mpr ?_) ?_
    · exact max_le (max_le hax1.le hbx1.le) hcx1.le
    · have h0 : (0 : ℤ) < Int.ceil (max (max va.position.x vb.position.x)
          vc.position.x) := by
        rw [Int.ceil_pos]
        exact lt_of_lt_of_le hax (le_trans (le_max_left _ _) (le_max_left _ _))
      omega
  have hmaxy : Int.ceil (max (max va.position.y vb.position.y)
      vc.position.y) = 1 := by
    refine le_antisymm (Int.ceil_le.mpr ?_) ?_
    · exact max_le (max_le hay1.le hby1.le) hcy1.le
    · have h0 : (0 : ℤ) < Int.ceil (max (max va.position.y vb.position.y)
          vc.position.y) := by
        rw [Int.ceil_pos]
        exact lt_of_lt_of_le hay (le_trans (le_max_left _ _) (le_max_left _ _))
      omega
  unfold scannedPixels
  rw [hminx, hminy, hmaxx, hmaxy]
  have h0 : ((0 : ℤ) : ℚ) = 0 := by norm_num
  have h1 : ((1 : ℤ) : ℚ) = 1 := by norm_num
  rw [h0, h1]
  simp only [map_float_u32_zero, map_float_u32_one, Nat.sub_zero]

/-- Lagrange identity: the barycentric denominator is the sum of the squares
of the three cross-product components of the two edge vectors; in particular
it is positive whenever the screen-space cross product is nonzero. -/
theorem baryDenom_pos (a b c : Vec3Q) (h : screenCross a b c ≠ 0) :
    0 < baryDenom a b c := by
  have key : baryDenom a b c =
      ((b.x - a.x) * (c.y - a.y) - (b.y - a.y) * (c.x - a.x)) ^ 2 +
      ((b.x - a.x) * (c.z - a.z) - (b.z - a.z) * (c.x - a.x)) ^ 2 +
      ((b.y - a.y) * (c.z - a.z) - (b.z - a.z) * (c.y - a.y)) ^ 2 := by
    show ((b.vsub a).dot (b.vsub a) * (c.vsub a).dot (c.vsub a) -
        (b.vsub a).dot (c.vsub a) * (b.vsub a).dot (c.vsub a)) = _
    simp only [Vec3Q.vsub, Vec3Q.dot]
    ring
  have hne : (b.x - a.x) * (c.y - a.y) - (b.y - a.y) * (c.x - a.x) ≠ 0 := by
    simpa [screenCross] using h
  have h2 : 0 < ((b.x - a.x) * (c.y - a.y) - (b.y - a.y) * (c.x - a.x)) ^ 2 :=
    lt_of_le_of_ne (sq_nonneg _) (Ne.symm (pow_ne_zero 2 hne))
  have h3 := sq_nonneg ((b.x - a.x) * (c.z - a.z) - (b.z - a.z) * (c.x - a.x))
  have h4 := sq_nonneg ((b.y - a.y) * (c.z - a.z) - (b.z - a.z) * (c.y - a.y))
  rw [key]
  linarith

/-- With a nonzero denominator, the code's barycentric computation stays in
the finite fragment and agrees with the exact rational barycentrics. -/
theorem barycentric_coordinates_fin (x y : ℚ) (a b c : Vec3Q)
    (h : baryDenom a b c ≠ 0) :
    barycentric_coordinates x y a b c =
      ⟨FQ.fin (barycentricQ x y a b c).1,
       FQ.fin (barycentricQ x y a b c).2.1,
       FQ.fin (barycentricQ x y a b c).2.2⟩ := by
  have hd : ((b.vsub a).dot (b.vsub a) * (c.vsub a).dot (c.vsub a) -
      (b.vsub a).dot (c.vsub a) * (b.vsub a).dot (c.vsub a)) ≠ 0 := h
  simp only [barycentric_coordinates, barycentricQ, FQ.divQ]
  rw [if_pos hd, if_pos hd]
  simp only [FQ.sub]

/-- With a nonzero denominator the inside test is exactly non-negativity of
the three exact rational barycentric coordinates of the sample point. -/
theorem insideB_iff (va vb vc : VertexOutput) (w h : ℕ) (p : ℕ × ℕ)
    (hd : baryDenom va.position.xyz vb.position.xyz vc.position.xyz ≠ 0) :
    insideB va vb vc w h p = true ↔
      (0 ≤ (barycentricQ (map_u32_float p.1 0 w) (map_u32_float p.2 0 h)
          va.position.xyz vb.position.xyz vc.position.xyz).1 ∧
       0 ≤ (barycentricQ (map_u32_float p.1 0 w) (map_u32_float p.2 0 h)
          va.position.xyz vb.position.xyz vc.position.xyz).2.1 ∧
       0 ≤ (barycentricQ (map_u32_float p.1 0 w) (map_u32_float p.2 0 h)
          va.position.xyz vb.position.xyz vc.position.xyz).2.2) := by
  simp only [insideB]
  rw [barycentric_coordinates_fin _ _ _ _ _ hd]
  simp [FQ.flt, not_lt, and_assoc]

/-! ## Claim theorems -/

namespace Nmsr

/-- Claim C5: for every Part and amount `a`, `expand` gives a Cube size
`old.size + 2a` per axis and position `old.position - a` per axis, keeping
the box's center point invariant; a Quad gets size `old.size + 2a` per axis
with its position unchanged. -/
theorem expand_grows_and_recenters (pos size rot : Vec3Q) (uvs : CubeFaceUvs)
    (fu : FaceUv) (tex : PlayerPartTextureType) (anc : Option PartAnchorInfo)
    (a : ℚ) :
    ((Part.Cube pos size rot uvs tex anc).expand a).get_size =
        size.addScalar (2 * a) ∧
    ((Part.Cube pos size rot uvs tex anc).expand a).get_position =
        pos.subScalar a ∧
    (((Part.Cube pos size rot uvs tex anc).expand a).get_position).vadd
        ((((Part.Cube pos size rot uvs tex anc).expand a).get_size).smul
          (1 / 2)) = pos.vadd (size.smul (1 / 2)) ∧
    ((Part.Quad pos size rot fu tex anc).expand a).get_size =
        size.addScalar (2 * a) ∧
    ((Part.Quad pos size rot fu tex anc).expand a).get_position = pos := by
  refine ⟨?_, ?_, ?_, ?_, ?_⟩ <;>
    simp only [Part.expand, Part.get_size, Part.get_position, Vec3Q.addScalar,
      Vec3Q.subScalar, Vec3Q.vadd, Vec3Q.smul, Vec3Q.mk.injEq] <;>
    refine ⟨by ring, by ring, by ring⟩

/-- Claim C10: `expand` preserves the variant and every field other than
size (and, for a Cube, position): rotation, face UV data, texture and anchor
are returned unchanged, and the operation is total. -/
theorem expand_preserves_fields (pos size rot : Vec3Q) (uvs : CubeFaceUvs)
    (fu : FaceUv) (tex : PlayerPartTextureType) (anc : Option PartAnchorInfo)
    (a : ℚ) :
    (Part.Cube pos size rot uvs tex anc).expand a =
      Part.Cube (pos.subScalar a) (size.addScalar (2 * a)) rot uvs tex anc ∧
    (Part.Quad pos size rot fu tex anc).expand a =
      Part.Quad pos (size.addScalar (2 * a)) rot fu tex anc := by
  have h1 : a * 2 / 2 = a := by ring
  have h2 : 2 * a / 2 = a := by ring
  have h3 : a * 2 = 2 * a := by ring
  constructor <;> simp only [Part.expand, h1, h2, h3]

/-- Claim C7: with the hat layer enabled, `get_parts` on the head-layer
region returns exactly one Part — a Cube whose size is the base head size
expanded by `1/2` per axis (so by `2 * (1/2)` in total per axis) and whose
UV box start is the base head UV box start shifted by `(+32, +0)` texels; no
cape, shadow or armor part is included for a layer variant. -/
theorem get_parts_hat_layer (M : ArmorMaterial)
    (ctx : PlayerPartProviderContext) (hhat : ctx.has_hat_layer = true) :
    (get_parts M ctx PlayerBodyPartType.HeadLayer).length = 1 ∧
    ((get_parts M ctx PlayerBodyPartType.HeadLayer).getD 0 default).isCube =
      true ∧
    ((get_parts M ctx PlayerBodyPartType.HeadLayer).getD 0 default).get_size =
      ((compute_base_part PlayerBodyPartType.Head
          ctx.model.is_slim_arms).get_size).addScalar (2 * (1 / 2)) ∧
    ((get_parts M ctx
        PlayerBodyPartType.HeadLayer).getD 0 default).northFaceUv.top_left =
      ⟨(compute_base_part PlayerBodyPartType.Head
          ctx.model.is_slim_arms).northFaceUv.top_left.x + 32,
       (compute_base_part PlayerBodyPartType.Head
          ctx.model.is_slim_arms).northFaceUv.top_left.y + 0⟩ := by
  simp only [get_parts, PlayerBodyPartType.is_layer,
    PlayerBodyPartType.is_hat_layer, PlayerBodyPartType.get_non_layer_part,
    hhat, Bool.not_true, Bool.and_false, Bool.false_and, Bool.and_true,
    Bool.false_or, Bool.or_false, Bool.true_or, Bool.or_true, if_false,
    Bool.false_eq_true, ite_false, ite_true]
  refine ⟨rfl, ?_, ?_, ?_⟩ <;>
    simp [compute_base_part, perform_arm_part_rotation,
      expand_player_body_part, get_layer_expand_offset,
      get_body_part_layer_uv_offset, Part.new_cube, Part.expand_splat,
      Part.expand, Part.get_size, Part.isCube, Part.northFaceUv, box_uv,
      plainFaceUv, i32AsU16, ratAsU16, Vec3Q.addScalar, get_parts]

/-- Witness for claim C7 at a concrete context: hat layer enabled, no cape,
shadow or armor anywhere in the context. -/
theorem get_parts_hat_layer_witness :
    ((⟨PlayerModel.Normal, false, true, false, 0, none, none⟩ :
        PlayerPartProviderContext).has_hat_layer = true) ∧
    ((get_parts ⟨fun _ => none⟩
        ⟨PlayerModel.Normal, false, true, false, 0, none, none⟩
        PlayerBodyPartType.HeadLayer).length = 1 ∧
     ((get_parts ⟨fun _ => none⟩
        ⟨PlayerModel.Normal, false, true, false, 0, none, none⟩
        PlayerBodyPartType.HeadLayer).getD 0 default).isCube = true ∧
     ((get_parts ⟨fun _ => none⟩
        ⟨PlayerModel.Normal, false, true, false, 0, none, none⟩
        PlayerBodyPartType.HeadLayer).getD 0 default).get_size =
       ((compute_base_part PlayerBodyPartType.Head
           (⟨PlayerModel.Normal, false, true, false, 0, none, none⟩ :
             PlayerPartProviderContext).model.is_slim_arms).get_size).addScalar
         (2 * (1 / 2)) ∧
     ((get_parts ⟨fun _ => none⟩
        ⟨PlayerModel.Normal, false, true, false, 0, none, none⟩
        PlayerBodyPartType.HeadLayer).getD 0 default).northFaceUv.top_left =
       ⟨(compute_base_part PlayerBodyPartType.Head
           (⟨PlayerModel.Normal, false, true, false, 0, none, none⟩ :
             PlayerPartProviderContext).model.is_slim_arms).northFaceUv.top_left.x +
           32,
        (compute_base_part PlayerBodyPartType.Head
           (⟨PlayerModel.Normal, false, true, false, 0, none, none⟩ :
             PlayerPartProviderContext).model.is_slim_arms).northFaceUv.top_left.y +
           0⟩) :=
  ⟨rfl, get_parts_hat_layer ⟨fun _ => none⟩
    ⟨PlayerModel.Normal, false, true, false, 0, none, none⟩ rfl⟩

end Nmsr

/-- Claim C8: a quad's `get_vertices` lists the corners in the order
top-left, top-right, bottom-left, bottom-right and `get_indices` is exactly
`[2,0,3,0,1,3]`, producing the triangles (bottom-left, top-left,
bottom-right) and (top-left, top-right, bottom-right); on an axis-aligned
screen rectangle both triangles wind clockwise (positive signed area with
`y` growing down) and together they cover the rectangle exactly, overlapping
only on the shared diagonal. -/
theorem quad_index_buffer_tiles_rectangle (x0 x1 y0 y1 z : ℚ)
    (uvtl uvbr : Vec2Q) (nrm : Vec3Q) (p : Vec2Q)
    (hx : x0 < x1) (hy : y0 < y1) :
    (cornerQuad x0 x1 y0 y1 z uvtl uvbr nrm).get_indices =
      [2, 0, 3, 0, 1, 3] ∧
    (cornerQuad x0 x1 y0 y1 z uvtl uvbr nrm).get_vertices.map Vtx.xy =
      [⟨x0, y0⟩, ⟨x1, y0⟩, ⟨x0, y1⟩, ⟨x1, y1⟩] ∧
    ((cornerQuad x0 x1 y0 y1 z uvtl uvbr nrm).triVertex 0).xy = ⟨x0, y1⟩ ∧
    ((cornerQuad x0 x1 y0 y1 z uvtl uvbr nrm).triVertex 1).xy = ⟨x0, y0⟩ ∧
    ((cornerQuad x0 x1 y0 y1 z uvtl uvbr nrm).triVertex 2).xy = ⟨x1, y1⟩ ∧
    ((cornerQuad x0 x1 y0 y1 z uvtl uvbr nrm).triVertex 3).xy = ⟨x0, y0⟩ ∧
    ((cornerQuad x0 x1 y0 y1 z uvtl uvbr nrm).triVertex 4).xy = ⟨x1, y0⟩ ∧
    ((cornerQuad x0 x1 y0 y1 z uvtl uvbr nrm).triVertex 5).xy = ⟨x1, y1⟩ ∧
    0 < signedArea2 ⟨x0, y1⟩ ⟨x0, y0⟩ ⟨x1, y1⟩ ∧
    0 < signedArea2 ⟨x0, y0⟩ ⟨x1, y0⟩ ⟨x1, y1⟩ ∧
    (inRect x0 x1 y0 y1 p ↔
      (inTriangle ⟨x0, y1⟩ ⟨x0, y0⟩ ⟨x1, y1⟩ p ∨
       inTriangle ⟨x0, y0⟩ ⟨x1, y0⟩ ⟨x1, y1⟩ p)) ∧
    (inTriangle ⟨x0, y1⟩ ⟨x0, y0⟩ ⟨x1, y1⟩ p →
     inTriangle ⟨x0, y0⟩ ⟨x1, y0⟩ ⟨x1, y1⟩ p →
     signedArea2 ⟨x0, y0⟩ ⟨x1, y1⟩ p = 0) := by
  obtain ⟨px, py⟩ := p
  refine ⟨rfl, rfl, rfl, rfl, rfl, rfl, rfl, rfl, ?_, ?_, ?_, ?_⟩
  · simp only [signedArea2]
    nlinarith [mul_pos (sub_pos.mpr hx) (sub_pos.mpr hy)]
  · simp only [signedArea2]
    nlinarith [mul_pos (sub_pos.mpr hx) (sub_pos.mpr hy)]
  · simp only [inRect, inTriangle, signedArea2]
    constructor
    · rintro ⟨h1, h2, h3, h4⟩
      rcases le_or_lt 0 ((x1 - x0) * (py - y0) - (y1 - y0) * (px - x0))
        with hs | hs
      · left
        refine ⟨?_, ?_, ?_⟩ <;> nlinarith
      · right
        refine ⟨?_, ?_, ?_⟩ <;> nlinarith
    · rintro (⟨h1, h2, h3⟩ | ⟨h1, h2, h3⟩) <;>
        refine ⟨?_, ?_, ?_, ?_⟩ <;> nlinarith
  · simp only [inTriangle, signedArea2]
    rintro ⟨h1, h2, h3⟩ ⟨h4, h5, h6⟩
    nlinarith

/-- Witness for claim C8 on the rectangle `[0,2] * [0,1]` and the interior
point `(1, 1/2)`. -/
theorem quad_index_buffer_tiles_rectangle_witness :
    ((0 : ℚ) < 2 ∧ (0 : ℚ) < 1) ∧
    ((cornerQuad 0 2 0 1 0 ⟨0, 0⟩ ⟨1, 1⟩ ⟨0, 0, 1⟩).get_indices =
      [2, 0, 3, 0, 1, 3] ∧
    (cornerQuad 0 2 0 1 0 ⟨0, 0⟩ ⟨1, 1⟩ ⟨0, 0, 1⟩).get_vertices.map Vtx.xy =
      [⟨0, 0⟩, ⟨2, 0⟩, ⟨0, 1⟩, ⟨2, 1⟩] ∧
    ((cornerQuad 0 2 0 1 0 ⟨0, 0⟩ ⟨1, 1⟩ ⟨0, 0, 1⟩).triVertex 0).xy = ⟨0, 1⟩ ∧
    ((cornerQuad 0 2 0 1 0 ⟨0, 0⟩ ⟨1, 1⟩ ⟨0, 0, 1⟩).triVertex 1).xy = ⟨0, 0⟩ ∧
    ((cornerQuad 0 2 0 1 0 ⟨0, 0⟩ ⟨1, 1⟩ ⟨0, 0, 1⟩).triVertex 2).xy = ⟨2, 1⟩ ∧
    ((cornerQuad 0 2 0 1 0 ⟨0, 0⟩ ⟨1, 1⟩ ⟨0, 0, 1⟩).triVertex 3).xy = ⟨0, 0⟩ ∧
    ((cornerQuad 0 2 0 1 0 ⟨0, 0⟩ ⟨1, 1⟩ ⟨0, 0, 1⟩).triVertex 4).xy = ⟨2, 0⟩ ∧
    ((cornerQuad 0 2 0 1 0 ⟨0, 0⟩ ⟨1, 1⟩ ⟨0, 0, 1⟩).triVertex 5).xy = ⟨2, 1⟩ ∧
    0 < signedArea2 ⟨0, 1⟩ ⟨0, 0⟩ ⟨2, 1⟩ ∧
    0 < signedArea2 ⟨0, 0⟩ ⟨2, 0⟩ ⟨2, 1⟩ ∧
    (inRect 0 2 0 1 ⟨1, 1 / 2⟩ ↔
      (inTriangle ⟨0, 1⟩ ⟨0, 0⟩ ⟨2, 1⟩ ⟨1, 1 / 2⟩ ∨
       inTriangle ⟨0, 0⟩ ⟨2, 0⟩ ⟨2, 1⟩ ⟨1, 1 / 2⟩)) ∧
    (inTriangle ⟨0, 1⟩ ⟨0, 0⟩ ⟨2, 1⟩ ⟨1, 1 / 2⟩ →
     inTriangle ⟨0, 0⟩ ⟨2, 0⟩ ⟨2, 1⟩ ⟨1, 1 / 2⟩ →
     signedArea2 ⟨0, 0⟩ ⟨2, 1⟩ ⟨1, 1 / 2⟩ = 0)) :=
  ⟨⟨by norm_num, by norm_num⟩,
   quad_index_buffer_tiles_rectangle 0 2 0 1 0 ⟨0, 0⟩ ⟨1, 1⟩ ⟨0, 0, 1⟩
     ⟨1, 1 / 2⟩ (by norm_num) (by norm_num)⟩

/-- Claim C6 as stated is false: a `FaceUv` with rotation count `1` and a
stored horizontal flip serializes differently from the claim's reading in
which the stored horizontal flip is applied as a horizontal flip regardless
of rotation — the code applies it as a vertical flip. -/
theorem face_serialization_counterexample :
    RawProjectElementFace.new 0 ⟨⟨0, 0⟩, ⟨2, 1⟩, 1, true, false⟩ false ≠
    RawProjectElementFace.newClaimed 0 ⟨⟨0, 0⟩, ⟨2, 1⟩, 1, true, false⟩
      false := by
  decide

/-- Claim C6 (amended): a rotated `FaceUv` is normalized back to zero
rotations by `4 - rotation_count` further clockwise turns before any flip is
composed; the stored vertical flip is then applied as a vertical flip, and
the stored horizontal flip is applied as a horizontal flip when the original
rotation count was zero but as a vertical flip when it was non-zero. -/
theorem face_serialization_order (t : ℕ) (uv0 : FaceUv) (hflag : Bool)
    (hcnt : uv0.cw_rotation_count < 4) :
    (0 < uv0.cw_rotation_count →
      (FaceUv.rotateN (4 - uv0.cw_rotation_count) uv0).cw_rotation_count
        = 0) ∧
    (RawProjectElementFace.new t uv0 hflag).uv =
      uvQuad
        ((if uv0.flipped_horizontally then
            (if 0 < uv0.cw_rotation_count then FaceUv.flip_vertically
             else FaceUv.flip_horizontally)
          else id)
         ((if uv0.flipped_vertically then FaceUv.flip_vertically else id)
          ((if 0 < uv0.cw_rotation_count then
              FaceUv.rotateN (4 - uv0.cw_rotation_count)
            else id) uv0))) := by
  constructor
  · intro hpos
    have hcase : uv0.cw_rotation_count = 1 ∨ uv0.cw_rotation_count = 2 ∨
        uv0.cw_rotation_count = 3 := by omega
    rcases hcase with hcase | hcase | hcase <;>
      simp [hcase, FaceUv.rotateN, FaceUv.rotate_cw]
  · simp only [RawProjectElementFace.new, uvQuad]
    split_ifs <;> simp_all

/-- Witness for the amended claim C6 at a `FaceUv` with rotation count `1`,
a stored horizontal flip and no vertical flip. -/
theorem face_serialization_order_witness :
    ((⟨⟨0, 0⟩, ⟨2, 1⟩, 1, true, false⟩ : FaceUv).cw_rotation_count < 4) ∧
    ((0 < (⟨⟨0, 0⟩, ⟨2, 1⟩, 1, true, false⟩ : FaceUv).cw_rotation_count →
      (FaceUv.rotateN
          (4 - (⟨⟨0, 0⟩, ⟨2, 1⟩, 1, true, false⟩ : FaceUv).cw_rotation_count)
          ⟨⟨0, 0⟩, ⟨2, 1⟩, 1, true, false⟩).cw_rotation_count = 0) ∧
    (RawProjectElementFace.new 7 ⟨⟨0, 0⟩, ⟨2, 1⟩, 1, true, false⟩ true).uv =
      uvQuad
        ((if (⟨⟨0, 0⟩, ⟨2, 1⟩, 1, true, false⟩ : FaceUv).flipped_horizontally
          then
            (if 0 < (⟨⟨0, 0⟩, ⟨2, 1⟩, 1, true,
                false⟩ : FaceUv).cw_rotation_count then
              FaceUv.flip_vertically
             else FaceUv.flip_horizontally)
          else id)
         ((if (⟨⟨0, 0⟩, ⟨2, 1⟩, 1, true, false⟩ : FaceUv).flipped_vertically
           then FaceUv.flip_vertically else id)
          ((if 0 < (⟨⟨0, 0⟩, ⟨2, 1⟩, 1, true,
              false⟩ : FaceUv).cw_rotation_count then
              FaceUv.rotateN
                (4 - (⟨⟨0, 0⟩, ⟨2, 1⟩, 1, true,
                  false⟩ : FaceUv).cw_rotation_count)
            else id) ⟨⟨0, 0⟩, ⟨2, 1⟩, 1, true, false⟩)))) :=
  ⟨by decide,
   face_serialization_order 7 ⟨⟨0, 0⟩, ⟨2, 1⟩, 1, true, false⟩ true
     (by decide)⟩

/-- Claim C2: for a pixel that passes the inside test, the buffers are
written exactly when the new depth (the constant `1`) is not less than the
stored depth at that pixel; when it is strictly less, the pixel is skipped
and both buffers at that coordinate (indeed everywhere) are unchanged. -/
theorem processPixel_depth_test (st : ShaderState) (va vb vc : VertexOutput)
    (w h : ℕ) (tex : Textures) (p : ℕ × ℕ)
    (hin : insideB va vb vc w h p = true) :
    processPixel st va vb vc w h tex p =
      if 1 < tex.depth_buffer p.1 p.2 then tex
      else writeBack st va vb vc w h tex p := by
  rw [processPixel_eq, if_pos hin]

/-- Witness for claim C2: the pixel `(0,0)` of a `1 x 1` viewport is inside
the triangle with screen corners `(0,0)`, `(1,0)`, `(0,1)`. -/
theorem processPixel_depth_test_witness :
    (insideB (vOutAt 0 0) (vOutAt 1 0) (vOutAt 0 1) 1 1 (0, 0) = true) ∧
    processPixel stFix (vOutAt 0 0) (vOutAt 1 0) (vOutAt 0 1) 1 1 texFix
        (0, 0) =
      (if 1 < texFix.depth_buffer (0, 0).1 (0, 0).2 then texFix
       else writeBack stFix (vOutAt 0 0) (vOutAt 1 0) (vOutAt 0 1) 1 1 texFix
         (0, 0)) := by
  have hin : insideB (vOutAt 0 0) (vOutAt 1 0) (vOutAt 0 1) 1 1 (0, 0) =
      true := by
    simp only [insideB, vOutAt, map_u32_float, barycentric_coordinates,
      Vec4Q.xyz, Vec3Q.vsub, Vec3Q.dot, FQ.divQ, FQ.sub, FQ.flt]
    norm_num
  exact ⟨hin, processPixel_depth_test stFix (vOutAt 0 0) (vOutAt 1 0)
    (vOutAt 0 1) 1 1 texFix (0, 0) hin⟩

/-- Depth values after folding the pixel stage: every pixel's depth is
either its initial value or the constant `1`. -/
theorem foldl_processPixel_depth (st : ShaderState) (va vb vc : VertexOutput)
    (w h : ℕ) (L : List (ℕ × ℕ)) :
    ∀ (tex : Textures) (i j : ℕ),
      (L.foldl (processPixel st va vb vc w h) tex).depth_buffer i j =
          tex.depth_buffer i j ∨
      (L.foldl (processPixel st va vb vc w h) tex).depth_buffer i j = 1 := by
  induction L with
  | nil => intro tex i j; left; rfl
  | cons p L ih =>
      intro tex i j
      rw [List.foldl_cons]
      rcases ih (processPixel st va vb vc w h tex p) i j with hh | hh
      · rcases processPixel_depth_cases st va vb vc w h tex p i j with h2 | h2
        · left; exact hh.trans h2
        · right; exact hh.trans h2
      · right; exact hh

/-- Claim C3: every depth value `draw_triangle` writes is the constant
`1.0`, independent of the triangle's vertices — after the call each pixel's
depth is either its old value or `1`.  In particular the depth used in the
depth test is never interpolated from the transformed vertices. -/
theorem draw_triangle_depth_constant (e : RenderEntry) (indices : List ℕ)
    (vertices : List Vtx) (st : ShaderState) (i j : ℕ) :
    (draw_triangle e indices vertices st).textures.depth_buffer i j =
        e.textures.depth_buffer i j ∨
    (draw_triangle e indices vertices st).textures.depth_buffer i j = 1 := by
  unfold draw_triangle
  split_ifs
  · left; rfl
  · exact foldl_processPixel_depth st _ _ _ e.size.width e.size.height _
      e.textures i j

/-- Claim C9: every pixel coordinate the rasterizer scans — and hence every
buffer read and write of `draw_triangle` — lies inside
`[0, width) x [0, height)`, for any triangle, including ones whose
screen-space bounding box exceeds the viewport before clamping. -/
theorem scannedPixels_in_bounds (va vb vc : VertexOutput) (w h : ℕ)
    (p : ℕ × ℕ) (hp : p ∈ scannedPixels va vb vc w h) :
    p.1 < w ∧ p.2 < h := by
  simp only [scannedPixels] at hp
  rw [mem_boxPixels] at hp
  obtain ⟨h1, h2, h3, h4⟩ := hp
  have hx1 := map_float_u32_le
    ((Int.floor (min (min va.position.x vb.position.x) vc.position.x) : ℤ) :
      ℚ) w
  have hx2 := map_float_u32_le
    ((Int.ceil (max (max va.position.x vb.position.x) vc.position.x) : ℤ) :
      ℚ) w
  have hy1 := map_float_u32_le
    ((Int.floor (min (min va.position.y vb.position.y) vc.position.y) : ℤ) :
      ℚ) h
  have hy2 := map_float_u32_le
    ((Int.ceil (max (max va.position.y vb.position.y) vc.position.y) : ℤ) :
      ℚ) h
  omega

/-- Witness for claim C9: a triangle whose bounding box
`[-5, 10] x [-5, 10]` far exceeds the `1 x 1` viewport still scans only the
in-bounds pixel `(0, 0)`. -/
theorem scannedPixels_in_bounds_witness :
    ((0, 0) ∈ scannedPixels (vOutAt (-5) (-5)) (vOutAt 10 (1 / 2))
        (vOutAt (1 / 2) 10) 1 1) ∧
    ((0, 0) : ℕ × ℕ).1 < 1 ∧ ((0, 0) : ℕ × ℕ).2 < 1 := by
  have hmem : ((0, 0) : ℕ × ℕ) ∈ scannedPixels (vOutAt (-5) (-5))
      (vOutAt 10 (1 / 2)) (vOutAt (1 / 2) 10) 1 1 := by
    simp only [scannedPixels, vOutAt, map_float_u32]
    norm_num
    simp [boxPixels, rowPixels]
  exact ⟨hmem, scannedPixels_in_bounds (vOutAt (-5) (-5)) (vOutAt 10 (1 / 2))
    (vOutAt (1 / 2) 10) 1 1 (0, 0) hmem⟩

/-- Claim C1 is contradicted by the code: a fully degenerate triangle (all
three transformed screen positions coincide at `(1/2, 1/2)`) is not skipped.
The barycentric denominator is zero, the division yields `nan`, every
`nan < 0` test is false, so the pixel passes the inside test and the depth
test and both buffers are overwritten: the depth at `(0,0)` changes from `0`
to `1` and the color from `(5,5,5,5)` to the shaded `(255,255,255,255)`. -/
theorem draw_triangle_degenerate_writes :
    (draw_triangle ⟨⟨1, 1⟩, texFix⟩ [0, 1, 2]
        [⟨⟨0, 0, 0⟩, ⟨0, 0⟩, ⟨0, 0, 0⟩⟩, ⟨⟨0, 0, 0⟩, ⟨0, 0⟩, ⟨0, 0, 0⟩⟩,
         ⟨⟨0, 0, 0⟩, ⟨0, 0⟩, ⟨0, 0, 0⟩⟩]
        stConstHalf).textures.depth_buffer 0 0 = 1 ∧
    texFix.depth_buffer 0 0 = 0 ∧
    (draw_triangle ⟨⟨1, 1⟩, texFix⟩ [0, 1, 2]
        [⟨⟨0, 0, 0⟩, ⟨0, 0⟩, ⟨0, 0, 0⟩⟩, ⟨⟨0, 0, 0⟩, ⟨0, 0⟩, ⟨0, 0, 0⟩⟩,
         ⟨⟨0, 0, 0⟩, ⟨0, 0⟩, ⟨0, 0, 0⟩⟩]
        stConstHalf).textures.output 0 0 = ⟨255, 255, 255, 255⟩ ∧
    texFix.output 0 0 = ⟨5, 5, 5, 5⟩ := by
  have hscan : scannedPixels
      (⟨⟨1 / 2, 1 / 2, 0, 1⟩, ⟨0, 0⟩, ⟨0, 0, 1⟩⟩ : VertexOutput)
      ⟨⟨1 / 2, 1 / 2, 0, 1⟩, ⟨0, 0⟩, ⟨0, 0, 1⟩⟩
      ⟨⟨1 / 2, 1 / 2, 0, 1⟩, ⟨0, 0⟩, ⟨0, 0, 1⟩⟩ 1 1 = [(0, 0)] := by
    have hc : Int.ceil ((1 : ℚ) / 2) = 1 := by
      rw [Int.ceil_eq_iff]
      norm_num
    have hf : Int.floor ((1 : ℚ) / 2) = 0 := by norm_num
    simp only [scannedPixels, map_float_u32]
    norm_num [hc, hf]
    simp [boxPixels, rowPixels]
  have hin : insideB
      (⟨⟨1 / 2, 1 / 2, 0, 1⟩, ⟨0, 0⟩, ⟨0, 0, 1⟩⟩ : VertexOutput)
      ⟨⟨1 / 2, 1 / 2, 0, 1⟩, ⟨0, 0⟩, ⟨0, 0, 1⟩⟩
      ⟨⟨1 / 2, 1 / 2, 0, 1⟩, ⟨0, 0⟩, ⟨0, 0, 1⟩⟩ 1 1 (0, 0) = true := by
    simp only [insideB, map_u32_float, barycentric_coordinates, Vec4Q.xyz,
      Vec3Q.vsub, Vec3Q.dot, FQ.divQ, FQ.sub, FQ.flt]
    norm_num
  have hdraw : draw_triangle ⟨⟨1, 1⟩, texFix⟩ [0, 1, 2]
      [⟨⟨0, 0, 0⟩, ⟨0, 0⟩, ⟨0, 0, 0⟩⟩, ⟨⟨0, 0, 0⟩, ⟨0, 0⟩, ⟨0, 0, 0⟩⟩,
       ⟨⟨0, 0, 0⟩, ⟨0, 0⟩, ⟨0, 0, 0⟩⟩] stConstHalf =
      ⟨⟨1, 1⟩, writeBack stConstHalf
        ⟨⟨1 / 2, 1 / 2, 0, 1⟩, ⟨0, 0⟩, ⟨0, 0, 1⟩⟩
        ⟨⟨1 / 2, 1 / 2, 0, 1⟩, ⟨0, 0⟩, ⟨0, 0, 1⟩⟩
        ⟨⟨1 / 2, 1 / 2, 0, 1⟩, ⟨0, 0⟩, ⟨0, 0, 1⟩⟩ 1 1 texFix (0, 0)⟩ := by
    show (⟨⟨1, 1⟩, drawTriangleV stConstHalf _ _ _ 1 1 texFix⟩ :
        RenderEntry) = _
    unfold drawTriangleV
    simp only [show ∀ v : Vtx, apply_vertex_shader v stConstHalf =
      ⟨⟨1 / 2, 1 / 2, 0, 1⟩, ⟨0, 0⟩, ⟨0, 0, 1⟩⟩ from fun v => rfl]
    rw [hscan]
    rw [show List.foldl (processPixel stConstHalf
        ⟨⟨1 / 2, 1 / 2, 0, 1⟩, ⟨0, 0⟩, ⟨0, 0, 1⟩⟩
        ⟨⟨1 / 2, 1 / 2, 0, 1⟩, ⟨0, 0⟩, ⟨0, 0, 1⟩⟩
        ⟨⟨1 / 2, 1 / 2, 0, 1⟩, ⟨0, 0⟩, ⟨0, 0, 1⟩⟩ 1 1) texFix [(0, 0)] =
      processPixel stConstHalf
        ⟨⟨1 / 2, 1 / 2, 0, 1⟩, ⟨0, 0⟩, ⟨0, 0, 1⟩⟩
        ⟨⟨1 / 2, 1 / 2, 0, 1⟩, ⟨0, 0⟩, ⟨0, 0, 1⟩⟩
        ⟨⟨1 / 2, 1 / 2, 0, 1⟩, ⟨0, 0⟩, ⟨0, 0, 1⟩⟩ 1 1 texFix (0, 0)
      from rfl]
    rw [processPixel_eq, if_pos hin]
    norm_num [texFix]
  refine ⟨?_, rfl, ?_, rfl⟩
  · rw [hdraw]
    simp [writeBack, funUpdate]
  · rw [hdraw]
    simp only [writeBack, funUpdate]
    norm_num [shadeAt, convert_f32_slice_to_u8_slice, stConstHalf, FQ.mul,
      fqToU8]
    decide

/-- Claim C4 (amended): for a screen-non-degenerate triangle whose
transformed vertices lie strictly inside the viewport, drawn into fresh
buffers (depth `0` everywhere), the rasterizer writes exactly the pixels
whose sample point — the pixel's top-left corner `(i/width, j/height)`, not
its center — has all three barycentric coordinates non-negative, where the
barycentrics are the code's projection formula over the full 3D transformed
positions; written pixels hold the shaded color and depth `1`, all other
pixels of both buffers are bit-identical to their pre-call values. -/
theorem drawTriangleV_paints_corner_samples (st : ShaderState)
    (va vb vc : VertexOutput) (w h : ℕ) (tex : Textures) (i j : ℕ)
    (hnd : screenCross va.position.xyz vb.position.xyz vc.position.xyz ≠ 0)
    (hfresh : ∀ x y, tex.depth_buffer x y = 0)
    (ha : strictInside01 va) (hb : strictInside01 vb)
    (hc : strictInside01 vc) (hi : i < w) (hj : j < h) :
    ((drawTriangleV st va vb vc w h tex).output i j,
     (drawTriangleV st va vb vc w h tex).depth_buffer i j) =
      if 0 ≤ (barycentricQ (map_u32_float i 0 w) (map_u32_float j 0 h)
            va.position.xyz vb.position.xyz vc.position.xyz).1 ∧
         0 ≤ (barycentricQ (map_u32_float i 0 w) (map_u32_float j 0 h)
            va.position.xyz vb.position.xyz vc.position.xyz).2.1 ∧
         0 ≤ (barycentricQ (map_u32_float i 0 w) (map_u32_float j 0 h)
            va.position.xyz vb.position.xyz vc.position.xyz).2.2
      then (shadeAt st va vb vc w h (i, j), (1 : ℚ))
      else (tex.output i j, tex.depth_buffer i j) := by
  have hdenom : baryDenom va.position.xyz vb.position.xyz vc.position.xyz ≠
      0 := ne_of_gt (baryDenom_pos _ _ _ hnd)
  unfold drawTriangleV
  rw [scannedPixels_full va vb vc w h ha hb hc]
  have hmem : ((i, j) : ℕ × ℕ) ∈ boxPixels 0 w 0 h := by
    rw [mem_boxPixels]
    refine ⟨Nat.zero_le _, ?_, Nat.zero_le _, ?_⟩ <;> simpa
  rw [foldl_processPixel_mem st va vb vc w h (boxPixels 0 w 0 h) tex (i, j)
    (nodup_boxPixels 0 w h 0) hmem]
  rw [hfresh]
  norm_num
  simp only [insideB_iff va vb vc w h (i, j) hdenom]

/-- Claim C4 as stated is false: in a `1 x 1` viewport the triangle with
screen corners `(2/5, 2/5)`, `(9/10, 2/5)`, `(2/5, 9/10)` contains the
center `(1/2, 1/2)` of pixel `(0,0)` — all three pixel-center barycentric
coordinates are non-negative — yet the rasterizer, which samples the pixel's
top-left corner `(0, 0)` instead of its center, leaves the color and depth
buffers at `(0,0)` unchanged (the depth stays `0`, so nothing was written). -/
theorem draw_center_rule_counterexample :
    (0 ≤ (centerBarycentric2D (vOutAt (2 / 5) (2 / 5))
        (vOutAt (9 / 10) (2 / 5)) (vOutAt (2 / 5) (9 / 10)) 1 1 0 0).1 ∧
     0 ≤ (centerBarycentric2D (vOutAt (2 / 5) (2 / 5))
        (vOutAt (9 / 10) (2 / 5)) (vOutAt (2 / 5) (9 / 10)) 1 1 0 0).2.1 ∧
     0 ≤ (centerBarycentric2D (vOutAt (2 / 5) (2 / 5))
        (vOutAt (9 / 10) (2 / 5)) (vOutAt (2 / 5) (9 / 10)) 1 1 0 0).2.2) ∧
    screenCross (vOutAt (2 / 5) (2 / 5)).position.xyz
      (vOutAt (9 / 10) (2 / 5)).position.xyz
      (vOutAt (2 / 5) (9 / 10)).position.xyz ≠ 0 ∧
    strictInside01 (vOutAt (2 / 5) (2 / 5)) ∧
    strictInside01 (vOutAt (9 / 10) (2 / 5)) ∧
    strictInside01 (vOutAt (2 / 5) (9 / 10)) ∧
    (∀ x y, texFix.depth_buffer x y = 0) ∧
    (drawTriangleV stFix (vOutAt (2 / 5) (2 / 5)) (vOutAt (9 / 10) (2 / 5))
        (vOutAt (2 / 5) (9 / 10)) 1 1 texFix).output 0 0 =
      texFix.output 0 0 ∧
    (drawTriangleV stFix (vOutAt (2 / 5) (2 / 5)) (vOutAt (9 / 10) (2 / 5))
        (vOutAt (2 / 5) (9 / 10)) 1 1 texFix).depth_buffer 0 0 = 0 := by
  have ha : strictInside01 (vOutAt (2 / 5) (2 / 5)) := by
    norm_num [strictInside01, vOutAt]
  have hb : strictInside01 (vOutAt (9 / 10) (2 / 5)) := by
    norm_num [strictInside01, vOutAt]
  have hc : strictInside01 (vOutAt (2 / 5) (9 / 10)) := by
    norm_num [strictInside01, vOutAt]
  have hscan : scannedPixels (vOutAt (2 / 5) (2 / 5))
      (vOutAt (9 / 10) (2 / 5)) (vOutAt (2 / 5) (9 / 10)) 1 1 =
      [(0, 0)] := by
    rw [scannedPixels_full _ _ _ 1 1 ha hb hc]
    simp [boxPixels, rowPixels]
  have hin : insideB (vOutAt (2 / 5) (2 / 5)) (vOutAt (9 / 10) (2 / 5))
      (vOutAt (2 / 5) (9 / 10)) 1 1 (0, 0) = false := by
    simp only [insideB, vOutAt, map_u32_float, barycentric_coordinates,
      Vec4Q.xyz, Vec3Q.vsub, Vec3Q.dot, FQ.divQ, FQ.sub, FQ.flt]
    norm_num
  have hdraw : drawTriangleV stFix (vOutAt (2 / 5) (2 / 5))
      (vOutAt (9 / 10) (2 / 5)) (vOutAt (2 / 5) (9 / 10)) 1 1 texFix =
      texFix := by
    unfold drawTriangleV
    rw [hscan]
    rw [show List.foldl (processPixel stFix (vOutAt (2 / 5) (2 / 5))
        (vOutAt (9 / 10) (2 / 5)) (vOutAt (2 / 5) (9 / 10)) 1 1) texFix
        [(0, 0)] =
      processPixel stFix (vOutAt (2 / 5) (2 / 5)) (vOutAt (9 / 10) (2 / 5))
        (vOutAt (2 / 5) (9 / 10)) 1 1 texFix (0, 0) from rfl]
    rw [processPixel_eq]
    rw [if_neg (show ¬(insideB (vOutAt (2 / 5) (2 / 5))
      (vOutAt (9 / 10) (2 / 5)) (vOutAt (2 / 5) (9 / 10)) 1 1 (0, 0) = true)
      from by rw [hin]; simp)]
  refine ⟨?_, ?_, ha, hb, hc, fun _ _ => rfl, ?_, ?_⟩
  · simp only [centerBarycentric2D, barycentricQ, vOutAt, Vec3Q.vsub,
      Vec3Q.dot]
    norm_num
  · simp only [screenCross, vOutAt, Vec4Q.xyz]
    norm_num
  · rw [hdraw]
  · rw [hdraw]
    rfl

/-- Witness for the amended claim C4 at the concrete triangle
`(2/5, 2/5)`, `(9/10, 2/5)`, `(2/5, 9/10)` in a `1 x 1` viewport with fresh
buffers. -/
theorem drawTriangleV_paints_corner_samples_witness :
    (screenCross (vOutAt (2 / 5) (2 / 5)).position.xyz
        (vOutAt (9 / 10) (2 / 5)).position.xyz
        (vOutAt (2 / 5) (9 / 10)).position.xyz ≠ 0) ∧
    (∀ x y, texFix.depth_buffer x y = 0) ∧
    strictInside01 (vOutAt (2 / 5) (2 / 5)) ∧
    strictInside01 (vOutAt (9 / 10) (2 / 5)) ∧
    strictInside01 (vOutAt (2 / 5) (9 / 10)) ∧
    (0 < 1 ∧ 0 < 1) ∧
    ((drawTriangleV stFix (vOutAt (2 / 5) (2 / 5)) (vOutAt (9 / 10) (2 / 5))
        (vOutAt (2 / 5) (9 / 10)) 1 1 texFix).output 0 0,
     (drawTriangleV stFix (vOutAt (2 / 5) (2 / 5)) (vOutAt (9 / 10) (2 / 5))
        (vOutAt (2 / 5) (9 / 10)) 1 1 texFix).depth_buffer 0 0) =
      (if 0 ≤ (barycentricQ (map_u32_float 0 0 1) (map_u32_float 0 0 1)
            (vOutAt (2 / 5) (2 / 5)).position.xyz
            (vOutAt (9 / 10) (2 / 5)).position.xyz
            (vOutAt (2 / 5) (9 / 10)).position.xyz).1 ∧
         0 ≤ (barycentricQ (map_u32_float 0 0 1) (map_u32_float 0 0 1)
            (vOutAt (2 / 5) (2 / 5)).position.xyz
            (vOutAt (9 / 10) (2 / 5)).position.xyz
            (vOutAt (2 / 5) (9 / 10)).position.xyz).2.1 ∧
         0 ≤ (barycentricQ (map_u32_float 0 0 1) (map_u32_float 0 0 1)
            (vOutAt (2 / 5) (2 / 5)).position.xyz
            (vOutAt (9 / 10) (2 / 5)).position.xyz
            (vOutAt (2 / 5) (9 / 10)).position.xyz).2.2
       then (shadeAt stFix (vOutAt (2 / 5) (2 / 5)) (vOutAt (9 / 10) (2 / 5))
          (vOutAt (2 / 5) (9 / 10)) 1 1 (0, 0), (1 : ℚ))
       else (texFix.output 0 0, texFix.depth_buffer 0 0)) := by
  have hnd : screenCross (vOutAt (2 / 5) (2 / 5)).position.xyz
      (vOutAt (9 / 10) (2 / 5)).position.xyz
      (vOutAt (2 / 5) (9 / 10)).position.xyz ≠ 0 := by
    simp only [screenCross, vOutAt, Vec4Q.xyz]
    norm_num
  have ha : strictInside01 (vOutAt (2 / 5) (2 / 5)) := by
    norm_num [strictInside01, vOutAt]
  have hb : strictInside01 (vOutAt (9 / 10) (2 / 5)) := by
    norm_num [strictInside01, vOutAt]
  have hc : strictInside01 (vOutAt (2 / 5) (9 / 10)) := by
    norm_num [strictInside01, vOutAt]
  exact ⟨hnd, fun _ _ => rfl, ha, hb, hc, ⟨Nat.one_pos, Nat.one_pos⟩,
    drawTriangleV_paints_corner_samples stFix (vOutAt (2 / 5) (2 / 5))
      (vOutAt (9 / 10) (2 / 5)) (vOutAt (2 / 5) (9 / 10)) 1 1 texFix 0 0
      hnd (fun _ _ => rfl) ha hb hc Nat.one_pos Nat.one_pos⟩
